import Mathlib

/-!
# HRPortal — verification of the JSON repair / validation / fallback core

Shallow embedding of the JSON-repair engine, schema validators, default
record factories and stage-agent entry points of the HRPortal repository
(`ATS-Portal/agents/*.py`, `ATS With pydantic/agents/job_matching_agent.py`,
`oa_module final/agents/parser_agent.py`), together with proofs about them.

Python values parsed from JSON are modelled by `JValue` (dicts as ordered
association lists, numbers as rationals — Python's int/float distinction is
not load-bearing for any property proved here and is noted where it would
matter).  Python's `json.loads` is modelled by `jsonLoads`, a fuel-indexed
recursive-descent parser for the JSON grammar accepted by CPython's `json`
module (deviations, none of which matter for the theorems below: `NaN` /
`Infinity` literals and `\u` surrogate pairs are not accepted, and error
positions are approximations of CPython's).  Functions that can raise in
Python return `Except PyErr _` in the model.
-/

set_option maxRecDepth 100000

namespace HRPortal

/-- A Python exception, as far as the modelled code distinguishes them. -/
inductive PyErr where
  | apiError
  | nameError
  | typeError
  | valueError
  | indexError
deriving DecidableEq, Repr

/-- Values produced by Python's `json.loads`: `None`, `bool`, numbers
(`int`/`float`, modelled as `ℚ`), `str`, `list`, `dict` (an ordered
association list — CPython dicts preserve first-insertion order and keep the
last value for a duplicated key, which `insertKey` below reproduces). -/
inductive JValue where
  | null
  | bool (b : Bool)
  | num (q : ℚ)
  | str (s : String)
  | arr (elems : List JValue)
  | obj (fields : List (String × JValue))
deriving Repr

/-- Insert into a dict: first-position, last-value semantics of CPython. -/
def insertKey (kvs : List (String × JValue)) (k : String) (v : JValue) :
    List (String × JValue) :=
  match kvs with
  | [] => [(k, v)]
  | (k0, v0) :: rest =>
    if k0 = k then (k0, v) :: rest else (k0, v0) :: insertKey rest k v

/-- Dict lookup (`d[k]` / `d.get(k)`). -/
def lookupKey (kvs : List (String × JValue)) (k : String) : Option JValue :=
  match kvs with
  | [] => none
  | (k0, v0) :: rest => if k0 = k then some v0 else lookupKey rest k

/-- Dict membership (`k in d`). -/
def hasKey (kvs : List (String × JValue)) (k : String) : Bool :=
  (lookupKey kvs k).isSome

/-- JSON whitespace skipped by CPython's `json` scanner. -/
def isJsonWs (c : Char) : Bool :=
  c = ' ' || c = '\t' || c = '\n' || c = '\r'

/-- Error kinds of `json.JSONDecodeError`, as far as the repaired-upon
messages distinguish them (`"Unterminated string"`, `"Expecting ',' delimiter"`,
other messages containing `"delimiter"`, everything else). -/
inductive JErrKind where
  | expectingValue
  | propertyName
  | colonDelimiter
  | commaDelimiter
  | unterminatedString
  | invalidEscape
  | extraData
  | fuelExhausted
deriving DecidableEq, Repr

/-- A `json.JSONDecodeError`: kind plus the number of characters remaining
in the input at the point of failure (converted to an absolute position, and
to CPython's line/column, by `jsonLoads` / `errLineCol`). -/
structure JErr where
  kind : JErrKind
  /-- Inside the parser: characters remaining at the failure; `jsonLoads`
  converts this to the absolute 0-based character position of the failure. -/
  pos : Nat
deriving DecidableEq, Repr

/-- Decode one `\uXXXX` hex digit. -/
def hexDigit? (c : Char) : Option Nat :=
  if '0' ≤ c ∧ c ≤ '9' then some (c.toNat - '0'.toNat)
  else if 'a' ≤ c ∧ c ≤ 'f' then some (c.toNat - 'a'.toNat + 10)
  else if 'A' ≤ c ∧ c ≤ 'F' then some (c.toNat - 'A'.toNat + 10)
  else none

/-- Body of a JSON string (after the opening quote): characters until the
closing quote, with the escape sequences CPython's `json` accepts.  `acc`
holds the decoded characters in reverse.  Raw control characters are
rejected (CPython's default `strict=True`); `\u` surrogate pairs are decoded
as two separate code units (deviation, irrelevant here). -/
def parseStringBody (acc : List Char) : List Char → Except JErrKind (String × List Char)
  | [] => .error .unterminatedString
  | '"' :: rest => .ok (String.mk acc.reverse, rest)
  | '\\' :: rest =>
    match rest with
    | [] => .error .unterminatedString
    | 'u' :: h1 :: h2 :: h3 :: h4 :: rest2 =>
      match hexDigit? h1, hexDigit? h2, hexDigit? h3, hexDigit? h4 with
      | some a, some b, some c, some d =>
        parseStringBody (Char.ofNat (((a * 16 + b) * 16 + c) * 16 + d) :: acc) rest2
      | _, _, _, _ => .error .invalidEscape
    | e :: rest2 =>
      if e = '"' then parseStringBody ('"' :: acc) rest2
      else if e = '\\' then parseStringBody ('\\' :: acc) rest2
      else if e = '/' then parseStringBody ('/' :: acc) rest2
      else if e = 'b' then parseStringBody (Char.ofNat 8 :: acc) rest2
      else if e = 'f' then parseStringBody (Char.ofNat 12 :: acc) rest2
      else if e = 'n' then parseStringBody ('\n' :: acc) rest2
      else if e = 'r' then parseStringBody ('\r' :: acc) rest2
      else if e = 't' then parseStringBody ('\t' :: acc) rest2
      else .error .invalidEscape
  | c :: rest =>
    if c.toNat < 32 then .error .invalidEscape
    else parseStringBody (c :: acc) rest

/-- Digit run of a JSON number. -/
def takeDigits (cs : List Char) : List Char × List Char :=
  (cs.takeWhile (fun c => '0' ≤ c ∧ c ≤ '9'), cs.dropWhile (fun c => '0' ≤ c ∧ c ≤ '9'))

/-- Digits to a natural number. -/
def digitsToNat (ds : List Char) : Nat :=
  ds.foldl (fun n c => n * 10 + (c.toNat - '0'.toNat)) 0

/-- A JSON number per CPython's grammar
`-?(0|[1-9][0-9]*)([.][0-9]+)?([eE][+-]?[0-9]+)?`, as a rational. -/
def parseNumber (cs : List Char) : Except JErrKind (ℚ × List Char) :=
  let (neg, cs1) := match cs with
    | '-' :: t => (true, t)
    | _ => (false, cs)
  let (intDs, cs2) := takeDigits cs1
  match intDs with
  | [] => .error .expectingValue
  | d0 :: drest =>
    -- leading zeros are not accepted by CPython's NUMBER_RE
    if d0 = '0' ∧ drest ≠ [] then .error .expectingValue
    else
      let intPart : ℚ := (digitsToNat intDs : ℚ)
      let (fracPart, cs3) : ℚ × List Char :=
        match cs2 with
        | '.' :: t =>
          let (fds, t2) := takeDigits t
          if fds = [] then (0, cs2)  -- ".": not part of the number; scanner stops before it
          else ((digitsToNat fds : ℚ) / ((10 : ℚ) ^ fds.length), t2)
        | _ => (0, cs2)
      let (expPart, cs4) : ℤ × List Char :=
        match cs3 with
        | 'e' :: t | 'E' :: t =>
          let (esign, t1) : Bool × List Char := match t with
            | '-' :: u => (true, u)
            | '+' :: u => (false, u)
            | _ => (false, t)
          let (eds, t2) := takeDigits t1
          if eds = [] then (0, cs3)
          else ((if esign then -(digitsToNat eds : ℤ) else (digitsToNat eds : ℤ)), t2)
        | _ => (0, cs3)
      let mag : ℚ := (intPart + fracPart) * (10 : ℚ) ^ expPart
      .ok ((if neg then -mag else mag), cs4)

mutual

/-- One JSON value, fuel-indexed (the fuel exceeds the input length at the
top-level call, so `fuelExhausted` is unreachable there).  Mirrors CPython's
scanner: no leading-whitespace skip (callers skip), error kinds as CPython
classifies them. -/
def parseValue : Nat → List Char → Except JErr (JValue × List Char)
  | 0, cs => .error ⟨.fuelExhausted, cs.length⟩
  | n + 1, cs =>
    match cs with
    | [] => .error ⟨.expectingValue, 0⟩
    | '"' :: t =>
      match parseStringBody [] t with
      | .ok (s, rest) => .ok (.str s, rest)
      | .error k => .error ⟨k, cs.length⟩  -- CPython reports the opening quote
    | '{' :: t => parseObjRest n t []
    | '[' :: t => parseArrRest n t
    | 't' :: 'r' :: 'u' :: 'e' :: t => .ok (.bool true, t)
    | 'f' :: 'a' :: 'l' :: 's' :: 'e' :: t => .ok (.bool false, t)
    | 'n' :: 'u' :: 'l' :: 'l' :: t => .ok (.null, t)
    | c :: _ =>
      if c = '-' ∨ ('0' ≤ c ∧ c ≤ '9') then
        match parseNumber cs with
        | .ok (q, rest) => .ok (.num q, rest)
        | .error k => .error ⟨k, cs.length⟩
      else .error ⟨.expectingValue, cs.length⟩

/-- Members of an object after the opening `{` (or after a `,`):
`acc` holds the members parsed so far. -/
def parseObjRest : Nat → List Char → List (String × JValue) →
    Except JErr (JValue × List Char)
  | 0, cs, _ => .error ⟨.fuelExhausted, cs.length⟩
  | n + 1, cs, acc =>
    let u := cs.dropWhile isJsonWs
    match u with
    | '}' :: r => if acc.isEmpty then .ok (.obj [], r) else .error ⟨.propertyName, u.length⟩
    | '"' :: t =>
      match parseStringBody [] t with
      | .error k => .error ⟨k, u.length⟩
      | .ok (key, rest) =>
        let u2 := rest.dropWhile isJsonWs
        match u2 with
        | ':' :: r2 =>
          match parseValue n (r2.dropWhile isJsonWs) with
          | .error e => .error e
          | .ok (v, rest2) =>
            let u3 := rest2.dropWhile isJsonWs
            match u3 with
            | ',' :: r3 => parseObjMore n r3 (insertKey acc key v)
            | '}' :: r3 => .ok (.obj (insertKey acc key v), r3)
            | _ => .error ⟨.commaDelimiter, u3.length⟩
        | _ => .error ⟨.colonDelimiter, u2.length⟩
    | _ => .error ⟨.propertyName, u.length⟩

/-- After a `,` inside an object a member is mandatory (CPython rejects
trailing commas with "Expecting property name enclosed in double quotes"). -/
def parseObjMore : Nat → List Char → List (String × JValue) →
    Except JErr (JValue × List Char)
  | 0, cs, _ => .error ⟨.fuelExhausted, cs.length⟩
  | n + 1, cs, acc =>
    let u := cs.dropWhile isJsonWs
    match u with
    | '"' :: t =>
      match parseStringBody [] t with
      | .error k => .error ⟨k, u.length⟩
      | .ok (key, rest) =>
        let u2 := rest.dropWhile isJsonWs
        match u2 with
        | ':' :: r2 =>
          match parseValue n (r2.dropWhile isJsonWs) with
          | .error e => .error e
          | .ok (v, rest2) =>
            let u3 := rest2.dropWhile isJsonWs
            match u3 with
            | ',' :: r3 => parseObjMore n r3 (insertKey acc key v)
            | '}' :: r3 => .ok (.obj (insertKey acc key v), r3)
            | _ => .error ⟨.commaDelimiter, u3.length⟩
        | _ => .error ⟨.colonDelimiter, u2.length⟩
    | _ => .error ⟨.propertyName, u.length⟩

/-- Elements of an array after the opening `[`: an immediately closing `]`
gives the empty array, otherwise the element loop runs. -/
def parseArrRest : Nat → List Char → Except JErr (JValue × List Char)
  | 0, cs => .error ⟨.fuelExhausted, cs.length⟩
  | n + 1, cs =>
    match cs.dropWhile isJsonWs with
    | ']' :: r => .ok (.arr [], r)
    | u => parseArrElems n u []

/-- The element loop of an array: one value, then `,` (mandatory next
element, as CPython rejects trailing commas with "Expecting value") or `]`. -/
def parseArrElems : Nat → List Char → List JValue →
    Except JErr (JValue × List Char)
  | 0, cs, _ => .error ⟨.fuelExhausted, cs.length⟩
  | n + 1, cs, acc =>
    match parseValue n cs with
    | .error e => .error e
    | .ok (v, rest) =>
      match rest.dropWhile isJsonWs with
      | ',' :: r2 => parseArrElems n (r2.dropWhile isJsonWs) (acc ++ [v])
      | ']' :: r2 => .ok (.arr (acc ++ [v]), r2)
      | u2 => .error ⟨.commaDelimiter, u2.length⟩

end

/-- Python's `json.loads`: skip leading whitespace, parse one value, require
only whitespace after it.  Errors carry an absolute character position. -/
def jsonLoads (s : String) : Except JErr JValue :=
  let cs := s.toList
  match parseValue (cs.length + 1) (cs.dropWhile isJsonWs) with
  | .error e => .error ⟨e.kind, cs.length - e.pos⟩
  | .ok (v, rest) =>
    if rest.dropWhile isJsonWs = [] then .ok v
    else .error ⟨.extraData, cs.length - (rest.dropWhile isJsonWs).length⟩

/-- `e.isOk` for the model's `Except`. -/
def isOkE {ε α : Type} : Except ε α → Bool
  | .ok _ => true
  | .error _ => false

/-- CPython's 1-based line/column of an error position, as `json` reports
them in `str(e)` and as the repair code re-extracts them with
`re.search(r'line (\d+) column (\d+)', str(e))`. -/
def errLineCol (s : String) (pos : Nat) : Nat × Nat :=
  let pre := s.toList.take pos
  (1 + pre.count '\n', 1 + (pre.reverse.takeWhile (· ≠ '\n')).length)

/-- Serialization of a string as `json.dumps` writes it (ASCII content, the
escapes needed for the sentinel strings that actually occur). -/
def dumpString (s : String) : String :=
  "\"" ++ String.mk (s.toList.flatMap (fun c =>
    if c = '"' then ['\\', '"']
    else if c = '\\' then ['\\', '\\']
    else if c = '\n' then ['\\', 'n']
    else [c])) ++ "\""

mutual

/-- `json.dumps` with its default separators `", "` / `": "` (numbers in the
serialized default records are the integers 0 and 50, printed as such). -/
def jsonDumps : JValue → String
  | .null => "null"
  | .bool true => "true"
  | .bool false => "false"
  | .num q => if q.den = 1 then toString q.num else toString q  -- ints as ints
  | .str s => dumpString s
  | .arr xs => "[" ++ String.intercalate ", " (dumpsElems xs) ++ "]"
  | .obj kvs => "\x7b" ++ String.intercalate ", " (dumpsMembers kvs) ++ "\x7d"

/-- Serialized array elements. -/
def dumpsElems : List JValue → List String
  | [] => []
  | x :: xs => jsonDumps x :: dumpsElems xs

/-- Serialized object members. -/
def dumpsMembers : List (String × JValue) → List String
  | [] => []
  | (k, v) :: xs => (dumpString k ++ ": " ++ jsonDumps v) :: dumpsMembers xs

end

/-! ## Python string primitives and the regex passes of the repair engine

Each `re.sub` that the repair code performs is modelled by a left-to-right
scanner with the same non-overlapping-match semantics (fuel = input length;
every step consumes at least one character, so the fuel never runs out).
Python's `\s` and `str.strip()` are modelled over the ASCII whitespace
characters (the unicode extension is irrelevant to these inputs), and `\w`
over `[A-Za-z0-9_]`. -/

/-- Python whitespace: `str.strip()` / regex `\s` (ASCII part). -/
def isPyWs (c : Char) : Bool :=
  c = ' ' || c = '\t' || c = '\n' || c = '\r' || c = Char.ofNat 11 || c = Char.ofNat 12

/-- Regex `\w` (ASCII part). -/
def isWordChar (c : Char) : Bool :=
  ('a' ≤ c && c ≤ 'z') || ('A' ≤ c && c ≤ 'Z') || ('0' ≤ c && c ≤ '9') || c = '_'

/-- `str.strip()` on a character list. -/
def stripL (l : List Char) : List Char :=
  ((l.dropWhile isPyWs).reverse.dropWhile isPyWs).reverse

/-- `str.strip()`. -/
def pyStrip (s : String) : String := String.mk (stripL s.toList)

/-- `str.startswith`. -/
def startsWithS (p s : String) : Bool := p.toList.isPrefixOf s.toList

/-- `str.endswith`. -/
def endsWithS (p s : String) : Bool := p.toList.reverse.isPrefixOf s.toList.reverse

/-- `s[n:]`. -/
def dropS (n : Nat) (s : String) : String := String.mk (s.toList.drop n)

/-- `s[:n]` (clamped like a Python slice). -/
def takeS (n : Nat) (s : String) : String := String.mk (s.toList.take n)

/-- `s[:-n]` for `n ≤ len(s)`. -/
def dropRightS (n : Nat) (s : String) : String :=
  String.mk (s.toList.take (s.toList.length - n))

/-- Index of the first occurrence of `needle` in `hay` (`str.find`). -/
def findSubIdx (needle : List Char) : List Char → Option Nat
  | [] => if needle.isEmpty then some 0 else none
  | c :: t =>
    if needle.isPrefixOf (c :: t) then some 0
    else (findSubIdx needle t).map (· + 1)

/-- `sub in s` for strings. -/
def containsSub (s sub : String) : Bool := (findSubIdx sub.toList s.toList).isSome

/-- `re.sub(r'([{,]\s*)(\w+)(:)', r'\1"\2"\3', ·)` of
`JobMatchingAgent.fix_json_string`: quote a bare identifier used as a key. -/
def quoteKeysJobAux : Nat → List Char → List Char
  | 0, l => l
  | _ + 1, [] => []
  | n + 1, c :: rest =>
    if c = '{' ∨ c = ',' then
      let ws := rest.takeWhile isPyWs
      let r1 := rest.dropWhile isPyWs
      let w := r1.takeWhile isWordChar
      match w, r1.dropWhile isWordChar with
      | _ :: _, ':' :: r3 =>
        c :: ws ++ '"' :: w ++ '"' :: ':' :: quoteKeysJobAux n r3
      | _, _ => c :: quoteKeysJobAux n rest
    else c :: quoteKeysJobAux n rest

/-- String wrapper for `quoteKeysJobAux`. -/
def quoteKeysJob (s : String) : String :=
  String.mk (quoteKeysJobAux s.toList.length s.toList)

/-- `re.sub(r'([{,]\s*)(\w+)(\s*:)', r'\1"\2"\3', ·)` of
`DecisionFeedbackAgent.clean_json_response` (whitespace also allowed between
the identifier and the colon). -/
def quoteKeysDecAux : Nat → List Char → List Char
  | 0, l => l
  | _ + 1, [] => []
  | n + 1, c :: rest =>
    if c = '{' ∨ c = ',' then
      let ws := rest.takeWhile isPyWs
      let r1 := rest.dropWhile isPyWs
      let w := r1.takeWhile isWordChar
      let r2 := r1.dropWhile isWordChar
      let ws2 := r2.takeWhile isPyWs
      match w, r2.dropWhile isPyWs with
      | _ :: _, ':' :: r3 =>
        c :: ws ++ '"' :: w ++ '"' :: ws2 ++ ':' :: quoteKeysDecAux n r3
      | _, _ => c :: quoteKeysDecAux n rest
    else c :: quoteKeysDecAux n rest

/-- String wrapper for `quoteKeysDecAux`. -/
def quoteKeysDec (s : String) : String :=
  String.mk (quoteKeysDecAux s.toList.length s.toList)

/-- `text.replace("'", '"')`. -/
def replaceSQuote (s : String) : String :=
  String.mk (s.toList.map (fun c => if c = '\'' then '"' else c))

/-- `re.sub(r'"\s*\n\s*"', '",\n"', ·)`: a quote, whitespace containing at
least one newline, a quote — rewritten to `",\n"` (both agents use the same
replacement; the decision agent writes the pattern with superfluous groups). -/
def fixMissingCommasAux : Nat → List Char → List Char
  | 0, l => l
  | _ + 1, [] => []
  | n + 1, c :: rest =>
    if c = '"' then
      let ws := rest.takeWhile isPyWs
      match ws.contains '\n', rest.drop ws.length with
      | true, '"' :: r2 => '"' :: ',' :: '\n' :: '"' :: fixMissingCommasAux n r2
      | _, _ => c :: fixMissingCommasAux n rest
    else c :: fixMissingCommasAux n rest

/-- String wrapper for `fixMissingCommasAux`. -/
def fixMissingCommas (s : String) : String :=
  String.mk (fixMissingCommasAux s.toList.length s.toList)

/-- `re.sub(r',(\s*[}\]])', r'\1', ·)`: drop a comma that precedes
(whitespace and) a closing brace/bracket. -/
def removeTrailingCommasAux : Nat → List Char → List Char
  | 0, l => l
  | _ + 1, [] => []
  | n + 1, c :: rest =>
    if c = ',' then
      let ws := rest.takeWhile isPyWs
      match rest.drop ws.length with
      | b :: r2 =>
        if b = '}' ∨ b = ']' then ws ++ b :: removeTrailingCommasAux n r2
        else c :: removeTrailingCommasAux n rest
      | [] => c :: removeTrailingCommasAux n rest
    else c :: removeTrailingCommasAux n rest

/-- String wrapper for `removeTrailingCommasAux`. -/
def removeTrailingCommas (s : String) : String :=
  String.mk (removeTrailingCommasAux s.toList.length s.toList)

/-- `re.search(r'({[\s\S]*})', ·)`: the span from the first `{` (that is
followed by some `}`) to the last `}` of the text, if any. -/
def extractBraceSpan (s : String) : Option String :=
  let l := s.toList
  match findSubIdx ['{'] l, (findSubIdx ['}'] l.reverse).map (l.length - 1 - ·) with
  | some i, some j => if i < j then some (String.mk ((l.drop i).take (j - i + 1))) else
      -- a lone `{}` pair at the same spot cannot occur (`{` ≠ `}`); when the
      -- last `}` sits at or before the first `{` the regex backtracks to
      -- earlier `{`s, all of which also sit at or after it, so there is no match
      none
  | _, _ => none

/-- `'\n'.join` after `split('\n')`. -/
def joinLines (ls : List String) : String := String.intercalate "\n" ls

/-- `re.sub(r'"\s*}\s*{', '"},{"', ·)` (aggressive pass of
`fix_json_at_error`). -/
def subQuoteBraceBraceAux : Nat → List Char → List Char
  | 0, l => l
  | _ + 1, [] => []
  | n + 1, c :: rest =>
    if c = '"' then
      let r1 := rest.dropWhile isPyWs
      match r1 with
      | '}' :: r2 =>
        match r2.dropWhile isPyWs with
        | '{' :: r3 => '"' :: '}' :: ',' :: '{' :: '"' :: subQuoteBraceBraceAux n r3
        | _ => c :: subQuoteBraceBraceAux n rest
      | _ => c :: subQuoteBraceBraceAux n rest
    else c :: subQuoteBraceBraceAux n rest

/-- `re.sub(r'"\s*]\s*\[', '"],["', ·)`. -/
def subQuoteBrackBrackAux : Nat → List Char → List Char
  | 0, l => l
  | _ + 1, [] => []
  | n + 1, c :: rest =>
    if c = '"' then
      let r1 := rest.dropWhile isPyWs
      match r1 with
      | ']' :: r2 =>
        match r2.dropWhile isPyWs with
        | '[' :: r3 => '"' :: ']' :: ',' :: '[' :: '"' :: subQuoteBrackBrackAux n r3
        | _ => c :: subQuoteBrackBrackAux n rest
      | _ => c :: subQuoteBrackBrackAux n rest
    else c :: subQuoteBrackBrackAux n rest

/-- `re.sub(r'"\s*"', '","', ·)`: put a comma between any two
whitespace-separated quotes. -/
def subQuoteQuoteAux : Nat → List Char → List Char
  | 0, l => l
  | _ + 1, [] => []
  | n + 1, c :: rest =>
    if c = '"' then
      match rest.dropWhile isPyWs with
      | '"' :: r2 => '"' :: ',' :: '"' :: subQuoteQuoteAux n r2
      | _ => c :: subQuoteQuoteAux n rest
    else c :: subQuoteQuoteAux n rest

/-- `re.sub(r'"(\s*)}', '"}', ·)`: the whitespace is dropped by the literal
replacement. -/
def subQuoteWsBraceAux : Nat → List Char → List Char
  | 0, l => l
  | _ + 1, [] => []
  | n + 1, c :: rest =>
    if c = '"' then
      match rest.dropWhile isPyWs with
      | '}' :: r2 => '"' :: '}' :: subQuoteWsBraceAux n r2
      | _ => c :: subQuoteWsBraceAux n rest
    else c :: subQuoteWsBraceAux n rest

/-- `re.sub(r'"(\s*)]', '"]', ·)`. -/
def subQuoteWsBrackAux : Nat → List Char → List Char
  | 0, l => l
  | _ + 1, [] => []
  | n + 1, c :: rest =>
    if c = '"' then
      match rest.dropWhile isPyWs with
      | ']' :: r2 => '"' :: ']' :: subQuoteWsBrackAux n r2
      | _ => c :: subQuoteWsBrackAux n rest
    else c :: subQuoteWsBrackAux n rest

/-- `re.sub(r',(\s*CLOSER)$', 'CLOSER', ·)` for `}` / `]`: only at the very
end of the string (Python's `$` nuance before a final newline does not arise
on these inputs). -/
def dropCommaBeforeCloser (closer : Char) (s : String) : String :=
  match s.toList.reverse with
  | c :: t =>
    if c = closer then
      let ws := t.takeWhile isPyWs
      match t.drop ws.length with
      | ',' :: rrest => String.mk ((closer :: rrest).reverse)
      | _ => s
    else s
  | [] => s

/-- `str.replace(old, new)`: replace every occurrence, left to right. -/
def replaceAllSubAux (old new : List Char) : Nat → List Char → List Char
  | 0, l => l
  | _ + 1, [] => []
  | n + 1, c :: rest =>
    if ¬ old.isEmpty ∧ old.isPrefixOf (c :: rest) then
      new ++ replaceAllSubAux old new n ((c :: rest).drop old.length)
    else c :: replaceAllSubAux old new n rest

/-- String wrapper for `replaceAllSubAux`. -/
def replaceAllSub (s old new : String) : String :=
  String.mk (replaceAllSubAux old.toList new.toList s.toList.length s.toList)

/-! ## `JobMatchingAgent` (ATS-Portal): repair engine and default record -/

/-- `JobMatchingAgent.fix_json_string` (ATS-Portal, lines 17–43): strip, drop
code fences, close a truncated object, quote bare keys, normalize quotes,
insert missing commas, drop trailing commas.  The fence subs
`re.sub(r'^```.*\n', '', ·)` / `re.sub(r'\n```$', '', ·)` only fire when a
newline is present. -/
def fixJsonString (jsonStr : String) : String :=
  let t0 := pyStrip jsonStr
  let t1 :=
    if startsWithS "```" t0 then
      let ta := match findSubIdx ['\n'] t0.toList with
        | some i => dropS (i + 1) t0
        | none => t0
      if endsWithS "\n```" ta then dropRightS 4 ta else ta
    else t0
  let t2 := if ¬ endsWithS "\x7d" t1 then t1 ++ "\x7d" else t1
  let t3 := quoteKeysJob t2
  let t4 := replaceSQuote t3
  let t5 := fixMissingCommas t4
  removeTrailingCommas t5

/-- `JobMatchingAgent.create_default_analysis` (ATS-Portal, lines 116–145). -/
def defaultAnalysisJ : JValue :=
  .obj [
    ("match_score", .num 0),
    ("analysis", .obj [
      ("skills", .obj [("score", .num 0), ("matches", .arr []), ("gaps", .arr [])]),
      ("experience", .obj [("score", .num 0), ("matches", .arr []), ("gaps", .arr [])]),
      ("education", .obj [("score", .num 0), ("matches", .arr []), ("gaps", .arr [])]),
      ("additional", .obj [("score", .num 0), ("matches", .arr []), ("gaps", .arr [])])]),
    ("recommendation", .str "Unable to generate recommendation due to processing error"),
    ("key_strengths", .arr []),
    ("areas_for_consideration", .arr [.str "Analysis failed - please try again"])]

/-- `JobMatchingAgent.clean_json_response` (ATS-Portal, lines 45–114).
After `fix_json_string`, the first `json.loads` attempt either succeeds (the
cleaned text is returned) or raises `json.JSONDecodeError`; the
`except ... as e` clause prints and — per Python 3 semantics — unbinds `e`
at the end of the clause, so the subsequent
`if "Unterminated string" in str(e)` (line 71) raises `NameError`.  That
`NameError` is caught by the method's outer `except Exception` (line 111),
which returns `json.dumps(self.create_default_analysis())`.  The second and
third cleaning attempts (lines 63–109) are therefore dead code. -/
def jobCleanJsonResponse (responseText : String) : String :=
  let cleaned := fixJsonString responseText
  if isOkE (jsonLoads cleaned) then cleaned
  else jsonDumps defaultAnalysisJ

/-! ## `DecisionFeedbackAgent` (ATS-Portal): repair engine and default record -/

/-- `decision` section of `create_default_decision`. -/
def defaultDecSection : List (String × JValue) :=
  [("status", .str "HOLD"),
   ("confidence_score", .num 50),
   ("interview_stage", .str "SCREENING")]

/-- `rationale` section of `create_default_decision`. -/
def defaultRationaleSection : List (String × JValue) :=
  [("key_strengths", .arr [.str "Unable to determine due to processing error"]),
   ("concerns", .arr [.str "Unable to process candidate data completely"]),
   ("risk_factors", .arr [.str "Decision based on incomplete information"])]

/-- `recommendations` section of `create_default_decision`. -/
def defaultRecommendationsSection : List (String × JValue) :=
  [("interview_focus", .arr [.str "Verify resume contents manually"]),
   ("skill_verification", .arr [.str "Conduct thorough technical assessment"]),
   ("discussion_points", .arr [.str "Discuss areas mentioned in resume"])]

/-- `hiring_manager_notes` section of `create_default_decision`. -/
def defaultHmnSection : List (String × JValue) :=
  [("salary_band_fit", .str "Unable to determine"),
   ("growth_trajectory", .str "Unable to determine"),
   ("team_fit_considerations", .str "Manual assessment required"),
   ("onboarding_requirements", .arr [.str "Standard onboarding process"])]

/-- `next_steps` section of `create_default_decision`. -/
def defaultNextStepsSection : List (String × JValue) :=
  [("immediate_actions", .arr [.str "Re-run analysis or manually review"]),
   ("required_approvals", .arr [.str "Hiring manager approval needed"]),
   ("timeline_recommendation", .str "Proceed with caution due to data processing issues")]

/-- `DecisionFeedbackAgent.create_default_decision` (ATS-Portal, lines 283–312). -/
def defaultDecisionJ : JValue :=
  .obj [
    ("decision", .obj defaultDecSection),
    ("rationale", .obj defaultRationaleSection),
    ("recommendations", .obj defaultRecommendationsSection),
    ("hiring_manager_notes", .obj defaultHmnSection),
    ("next_steps", .obj defaultNextStepsSection)]

/-- `DecisionFeedbackAgent.clean_json_response` (ATS-Portal, lines 17–160):
strip, drop `‵‵‵json` / `‵‵‵` fences, extract the outermost `{...}` span,
return if it parses; otherwise quote bare keys, normalize quotes, insert
missing commas, drop trailing commas, return if that parses.  If the second
parse attempt also fails, line 72 (`if "Unterminated string" in str(e)`)
raises `NameError`: `e` was unbound at the end of the
`except json.JSONDecodeError as e` clause (Python 3 deletes the alias), and
no handler inside the method catches it — so the method raises instead of
reaching its final `return cleaned_text` (which would return text that does
not parse).  Lines 69–160 are therefore unreachable. -/
def decisionCleanJsonResponse (responseText : String) : Except PyErr String :=
  let c0 := pyStrip responseText
  let c1 :=
    if startsWithS "```json" c0 then dropS 7 c0
    else if startsWithS "```" c0 then dropS 3 c0
    else c0
  let c2 := if endsWithS "```" c1 then dropRightS 3 c1 else c1
  let c3 := match extractBraceSpan c2 with
    | some m => m
    | none => c2
  if isOkE (jsonLoads c3) then .ok c3
  else
    let c4 := quoteKeysDec c3
    let c5 := replaceSQuote c4
    let c6 := fixMissingCommas c5
    let c7 := removeTrailingCommas c6
    if isOkE (jsonLoads c7) then .ok c7
    else .error .nameError

/-! ## Error-position repair passes used between parse attempts -/

/-- Insert a character into line `ln` (1-based) at column offset `col` of a
multi-line string, as `problem_line[:col] + ch + problem_line[col:]` after
`split('\n')` — guarded, as in the source, only by `line_no <= len(lines)`
(Python slices clamp an oversized column). -/
def insertAtLineCol (ch : Char) (s : String) (ln col : Nat) : String :=
  let lines := s.splitOn "\n"
  if ln ≤ lines.length then
    let pl := (lines[ln - 1]?).getD ""
    joinLines (lines.set (ln - 1) (takeS col pl ++ String.mk [ch] ++ dropS col pl))
  else s

/-- The literal `"hiring_manager_notes"\s*:\s*{[^}]*}` section of the text,
if present (searched from the first occurrence of the label). -/
def hiringNotesSection (s : String) : Option String :=
  let label := "\"hiring_manager_notes\"".toList
  match findSubIdx label s.toList with
  | none => none
  | some i =>
    let afterLabel := s.toList.drop (i + label.length)
    let ws1 := afterLabel.takeWhile isPyWs
    match afterLabel.drop ws1.length with
    | ':' :: r2 =>
      let ws2 := r2.takeWhile isPyWs
      match r2.drop ws2.length with
      | '{' :: body =>
        let inner := body.takeWhile (· ≠ '}')
        match body.drop inner.length with
        | '}' :: _ =>
          some (String.mk (label ++ ws1 ++ ':' :: ws2 ++ '{' :: inner ++ ['}']))
        | _ => none
      | _ => none
    | _ => none

/-- `re.sub(r'("\s*)\n(\s*")', r'\1,\n\2', ·)`: between two quotes whose
separating whitespace contains a newline, insert a comma before the *last*
newline of the run (the greedy `\s*` in group 1 absorbs everything up to it). -/
def commaNlSubAux : Nat → List Char → List Char
  | 0, l => l
  | _ + 1, [] => []
  | n + 1, c :: rest =>
    if c = '"' then
      let ws := rest.takeWhile isPyWs
      match ws.contains '\n', rest.drop ws.length with
      | true, '"' :: r2 =>
        let ws2 := (ws.reverse.takeWhile (· ≠ '\n')).reverse
        let ws1 := ws.take (ws.length - ws2.length - 1)
        '"' :: ws1 ++ ',' :: '\n' :: ws2 ++ '"' :: commaNlSubAux n r2
      | _, _ => c :: commaNlSubAux n rest
    else c :: commaNlSubAux n rest

/-- String wrapper for `commaNlSubAux`. -/
def commaNlSub (s : String) : String :=
  String.mk (commaNlSubAux s.toList.length s.toList)

/-- `DecisionFeedbackAgent.fix_decision_delimiter_error` (lines 162–213):
insert a comma at line 26 column 32 if that makes the text parse; otherwise
insert commas between the quoted lines of the `hiring_manager_notes` section
(replacing every occurrence of that section, as `str.replace` does); return
the input unchanged when neither fix verifies. -/
def fixDecisionDelimiterError (jsonStr : String) : String :=
  let lines := jsonStr.splitOn "\n"
  let step1 : Option String :=
    if 26 ≤ lines.length then
      let pl := (lines[25]?).getD ""
      if 32 ≤ pl.toList.length then
        let fixedJson := joinLines (lines.set 25 (takeS 32 pl ++ "," ++ dropS 32 pl))
        if isOkE (jsonLoads fixedJson) then some fixedJson else none
      else none
    else none
  match step1 with
  | some r => r
  | none =>
    match hiringNotesSection jsonStr with
    | some sec =>
      let fixedJson := replaceAllSub jsonStr sec (commaNlSub sec)
      if isOkE (jsonLoads fixedJson) then fixedJson else jsonStr
    | none => jsonStr

/-- The aggressive regex chain at the end of
`DecisionFeedbackAgent.fix_json_at_error` (lines 263–279). -/
def aggressiveFixes (s : String) : String :=
  let s1 := String.mk (subQuoteBraceBraceAux s.toList.length s.toList)
  let s2 := String.mk (subQuoteBrackBrackAux s1.toList.length s1.toList)
  let s3 := String.mk (subQuoteQuoteAux s2.toList.length s2.toList)
  let s4 := String.mk (subQuoteWsBraceAux s3.toList.length s3.toList)
  let s5 := String.mk (subQuoteWsBrackAux s4.toList.length s4.toList)
  let s6 := dropCommaBeforeCloser '}' s5
  dropCommaBeforeCloser ']' s6

/-- `DecisionFeedbackAgent.fix_json_at_error` (lines 215–281), with the
message-substring dispatch replaced by the error kind: "Unterminated string"
⇒ insert a quote at the reported line/column and return; messages containing
"delimiter" (`Expecting ',' delimiter` / `Expecting ':' delimiter`) ⇒ insert
a comma there and return it if it parses, else run the aggressive chain; any
other error ⇒ aggressive chain. -/
def fixJsonAtError (s : String) (k : JErrKind) (ln col : Nat) : String :=
  if k = .unterminatedString then
    let lines := s.splitOn "\n"
    if ln ≤ lines.length then
      let pl := (lines[ln - 1]?).getD ""
      joinLines (lines.set (ln - 1) (takeS col pl ++ "\"" ++ dropS col pl))
    else aggressiveFixes s
  else if k = .commaDelimiter ∨ k = .colonDelimiter then
    let lines := s.splitOn "\n"
    if 0 < ln ∧ ln ≤ lines.length then
      let pl := (lines[ln - 1]?).getD ""
      if col ≤ pl.toList.length then
        let fixedLine :=
          if col < pl.toList.length then takeS col pl ++ "," ++ dropS col pl
          else pl ++ ","
        let fixedJson := joinLines (lines.set (ln - 1) fixedLine)
        if isOkE (jsonLoads fixedJson) then fixedJson else aggressiveFixes s
      else aggressiveFixes s
    else aggressiveFixes s
  else aggressiveFixes s

/-! ## Schema validators and structural salvage

Python duck-typing notes reflected below:
* `isinstance(x, (int, float))` is true for `bool` values (Python bools are
  ints), so a JSON `true`/`false` counts as numeric;
* where the source applies `in` / `[...]` to a value that is not a dict, the
  net result is always `False` for the validators (a `str`/`list` value makes
  the subsequent subscript raise `TypeError`, caught by the enclosing
  `except`, and any other type raises at the membership test itself), and
  "return the untouched default" for the salvage functions — the models
  collapse those exception paths accordingly. -/

/-- `isinstance(x, (int, float))`, with the numeric value (bools count). -/
def pyNum? : JValue → Option ℚ
  | .num q => some q
  | .bool b => some (if b then 1 else 0)
  | _ => none

/-- `isinstance(x, (int, float))`. -/
def isPyNum (v : JValue) : Bool := (pyNum? v).isSome

/-- `isinstance(x, list)`. -/
def isList : JValue → Bool
  | .arr _ => true
  | _ => false

/-- `isinstance(x, str)`. -/
def isStr : JValue → Bool
  | .str _ => true
  | _ => false

/-- `x` is numeric and `0 <= x <= 100`. -/
def numInRange100 (v : JValue) : Bool :=
  match pyNum? v with
  | some q => decide (0 ≤ q ∧ q ≤ 100)
  | none => false

/-- Look a key up in an object-valued field; `none` if the field is absent
or not an object. -/
def objField (kvs : List (String × JValue)) (k : String) : Option (List (String × JValue)) :=
  match lookupKey kvs k with
  | some (.obj sub) => some sub
  | _ => none

/-- The value of a key is a list. -/
def keyIsList (kvs : List (String × JValue)) (k : String) : Bool :=
  match lookupKey kvs k with
  | some v => isList v
  | none => false

/-- `DecisionFeedbackAgent.validate_decision` (ATS-Portal, lines 445–510):
five sections present; `decision` has `status`/`confidence_score`/
`interview_stage` with `status` and `interview_stage` in their enums and
`confidence_score` numeric in `[0, 100]`; `rationale` and `recommendations`
have their three keys, each a list; `hiring_manager_notes` has its four keys
with `onboarding_requirements` a list (the three string fields are *not*
type-checked); `next_steps` has its three keys with `immediate_actions` and
`required_approvals` lists (`timeline_recommendation` not type-checked). -/
def validateDecision (decision : JValue) : Bool :=
  match decision with
  | .obj kvs =>
    hasKey kvs "decision" && hasKey kvs "rationale" && hasKey kvs "recommendations" &&
    hasKey kvs "hiring_manager_notes" && hasKey kvs "next_steps" &&
    (match objField kvs "decision" with
     | some ds =>
       hasKey ds "status" && hasKey ds "confidence_score" && hasKey ds "interview_stage" &&
       (match lookupKey ds "status" with
        | some (.str st) => st = "PROCEED" || st = "HOLD" || st = "REJECT"
        | _ => false) &&
       (match lookupKey ds "confidence_score" with
        | some v => numInRange100 v
        | none => false) &&
       (match lookupKey ds "interview_stage" with
        | some (.str st) =>
          st = "SKIP" || st = "SCREENING" || st = "TECHNICAL" || st = "FULL_LOOP"
        | _ => false)
     | none => false) &&
    (match objField kvs "rationale" with
     | some rat =>
       hasKey rat "key_strengths" && hasKey rat "concerns" && hasKey rat "risk_factors" &&
       keyIsList rat "key_strengths" && keyIsList rat "concerns" && keyIsList rat "risk_factors"
     | none => false) &&
    (match objField kvs "recommendations" with
     | some rec =>
       hasKey rec "interview_focus" && hasKey rec "skill_verification" &&
       hasKey rec "discussion_points" &&
       keyIsList rec "interview_focus" && keyIsList rec "skill_verification" &&
       keyIsList rec "discussion_points"
     | none => false) &&
    (match objField kvs "hiring_manager_notes" with
     | some hmn =>
       hasKey hmn "salary_band_fit" && hasKey hmn "growth_trajectory" &&
       hasKey hmn "team_fit_considerations" && hasKey hmn "onboarding_requirements" &&
       keyIsList hmn "onboarding_requirements"
     | none => false) &&
    (match objField kvs "next_steps" with
     | some nxt =>
       hasKey nxt "immediate_actions" && hasKey nxt "required_approvals" &&
       hasKey nxt "timeline_recommendation" &&
       keyIsList nxt "immediate_actions" && keyIsList nxt "required_approvals"
     | none => false)
  | _ => false

/-- The per-category body of the `validate_match_analysis` loop
(lines 279–284): `score`/`matches`/`gaps` keys present and `score` numeric
in `[0, 100]`. -/
def categoryCheck (an : List (String × JValue)) (key : String) : Bool :=
  match objField an key with
  | some comp =>
    hasKey comp "score" && hasKey comp "matches" && hasKey comp "gaps" &&
    (match lookupKey comp "score" with
     | some v => numInRange100 v
     | none => false)
  | none => false

/-- `JobMatchingAgent.validate_match_analysis` (ATS-Portal, lines 268–288):
the five top-level keys present; the four category keys present under
`analysis`; each category has `score`/`matches`/`gaps` keys
(`categoryCheck`, the loop of lines 279–284) with `score` numeric in
`[0, 100]`.  The `matches` and `gaps` *values* are not type-checked — only
their presence is. -/
def validateMatchAnalysis (analysis : JValue) : Bool :=
  match analysis with
  | .obj kvs =>
    hasKey kvs "match_score" && hasKey kvs "analysis" && hasKey kvs "recommendation" &&
    hasKey kvs "key_strengths" && hasKey kvs "areas_for_consideration" &&
    (match objField kvs "analysis" with
     | some an =>
       hasKey an "skills" && hasKey an "experience" && hasKey an "education" &&
       hasKey an "additional" &&
       (["skills", "experience", "education", "additional"].all (categoryCheck an))
     | none => false)
  | _ => false

/-- `isinstance(value, type(default[section][key]))` of the salvage loop —
in the copied sections the default values are only strings and lists; the
other branches are included for completeness. -/
def typeMatchesPy (v dflt : JValue) : Bool :=
  match dflt with
  | .str _ => isStr v
  | .arr _ => isList v
  | .num _ => isPyNum v
  | .bool _ => (match v with | .bool _ => true | _ => false)
  | .null => (match v with | .null => true | _ => false)
  | .obj _ => (match v with | .obj _ => true | _ => false)

/-- The per-section copy loop of `fix_decision_structure` (lines 430–437):
for each input item whose key exists in the default section and whose value
has the same Python type as the current default value, overwrite it. -/
def copySectionItems : List (String × JValue) → List (String × JValue) →
    List (String × JValue)
  | [], dflt => dflt
  | kv :: rest, dflt =>
    copySectionItems rest
      (match lookupKey dflt kv.1 with
       | some cur => if typeMatchesPy kv.2 cur then insertKey dflt kv.1 kv.2 else dflt
       | none => dflt)

/-- The `decision`-section copy of `fix_decision_structure` (lines 417–427):
start from the default section; copy `status` / `interview_stage` when they
are in their enums, copy `confidence_score` whenever it is numeric — *no
range check*. -/
def fixDecisionSection (ds : List (String × JValue)) : List (String × JValue) :=
  let d1 :=
    match lookupKey ds "status" with
    | some (.str st) =>
      if st = "PROCEED" ∨ st = "HOLD" ∨ st = "REJECT" then
        insertKey defaultDecSection "status" (.str st)
      else defaultDecSection
    | _ => defaultDecSection
  let d2 :=
    match lookupKey ds "confidence_score" with
    | some v => if isPyNum v then insertKey d1 "confidence_score" v else d1
    | none => d1
  let d3 :=
    match lookupKey ds "interview_stage" with
    | some (.str st) =>
      if st = "SKIP" ∨ st = "SCREENING" ∨ st = "TECHNICAL" ∨ st = "FULL_LOOP" then
        insertKey d2 "interview_stage" (.str st)
      else d2
    | _ => d2
  d3

/-- `DecisionFeedbackAgent.fix_decision_structure` (ATS-Portal, lines
411–443): start from the default record; rebuild the `decision` section with
`fixDecisionSection` and copy the items of the four other sections when the
key exists in the default and the value's Python type matches
(`copySectionItems`).  A non-dict argument makes the first
subscript/membership raise, which the function's `except` turns into the
untouched default. -/
def fixDecisionStructure (decision : JValue) : JValue :=
  match decision with
  | .obj kvs =>
    let dec1 :=
      match objField kvs "decision" with
      | some ds => fixDecisionSection ds
      | none => defaultDecSection
    let rat1 :=
      match objField kvs "rationale" with
      | some s => copySectionItems s defaultRationaleSection
      | none => defaultRationaleSection
    let rec1 :=
      match objField kvs "recommendations" with
      | some s => copySectionItems s defaultRecommendationsSection
      | none => defaultRecommendationsSection
    let hmn1 :=
      match objField kvs "hiring_manager_notes" with
      | some s => copySectionItems s defaultHmnSection
      | none => defaultHmnSection
    let nxt1 :=
      match objField kvs "next_steps" with
      | some s => copySectionItems s defaultNextStepsSection
      | none => defaultNextStepsSection
    .obj [("decision", .obj dec1), ("rationale", .obj rat1),
          ("recommendations", .obj rec1), ("hiring_manager_notes", .obj hmn1),
          ("next_steps", .obj nxt1)]
  | _ => defaultDecisionJ

/-- The per-category rebuild of `fix_analysis_structure` (lines 243–261):
a fresh `{score, matches, gaps}` with only type-valid parts copied. -/
def fixCategorySection (sec : List (String × JValue)) : List (String × JValue) :=
  [("score",
     match lookupKey sec "score" with
     | some v => if isPyNum v then v else .num 0
     | none => .num 0),
   ("matches",
     match lookupKey sec "matches" with
     | some (.arr l) => .arr l
     | _ => .arr []),
   ("gaps",
     match lookupKey sec "gaps" with
     | some (.arr l) => .arr l
     | _ => .arr [])]

/-- `JobMatchingAgent.fix_analysis_structure` (ATS-Portal, lines 217–266):
start from the default analysis, copy `match_score` (numeric),
`recommendation` (string), `key_strengths` / `areas_for_consideration`
(lists), and rebuild each of the four category sections that is present as a
dict.  A non-dict argument raises at the first membership/subscript and the
`except` returns the untouched default. -/
def fixAnalysisStructure (analysis : JValue) : JValue :=
  match analysis with
  | .obj kvs =>
    let ms :=
      match lookupKey kvs "match_score" with
      | some v => if isPyNum v then v else .num 0
      | none => .num 0
    let rcm :=
      match lookupKey kvs "recommendation" with
      | some (.str r) => JValue.str r
      | _ => .str "Unable to generate recommendation due to processing error"
    let ks :=
      match lookupKey kvs "key_strengths" with
      | some (.arr l) => JValue.arr l
      | _ => .arr []
    let afc :=
      match lookupKey kvs "areas_for_consideration" with
      | some (.arr l) => JValue.arr l
      | _ => .arr [.str "Analysis failed - please try again"]
    let defaultSec : List (String × JValue) :=
      [("score", .num 0), ("matches", .arr []), ("gaps", .arr [])]
    let an :=
      match objField kvs "analysis" with
      | some anKvs =>
        ["skills", "experience", "education", "additional"].map fun key =>
          (key,
            match objField anKvs key with
            | some sec => JValue.obj (fixCategorySection sec)
            | none => JValue.obj defaultSec)
      | none =>
        ["skills", "experience", "education", "additional"].map fun key =>
          (key, JValue.obj defaultSec)
    .obj [("match_score", ms), ("analysis", .obj an), ("recommendation", rcm),
          ("key_strengths", ks), ("areas_for_consideration", afc)]
  | _ => defaultAnalysisJ

/-! ## Stage entry points

The external generation call (`openrouter.make_request` +
`get_completion`) is the opaque collaborator: its outcome — a raw completion
string, or a raised transport-level exception — is the `collab` parameter.
The prompt-building inputs (`candidate_profile`, `job_description`, …) only
feed that call and do not influence the modelled control flow. -/

/-- The repair applied between parse attempts of `generate_decision`
(lines 389–402): `"Expecting ',' delimiter"` ⇒ `fix_decision_delimiter_error`;
`"Unterminated string"` ⇒ insert a quote at the reported line/column;
anything else ⇒ `fix_json_at_error`. -/
def decisionRepairStep (s : String) (e : JErr) : String :=
  if e.kind = .commaDelimiter then fixDecisionDelimiterError s
  else if e.kind = .unterminatedString then
    let lc := errLineCol s e.pos
    insertAtLineCol '"' s lc.1 lc.2
  else
    let lc := errLineCol s e.pos
    fixJsonAtError s e.kind lc.1 lc.2

/-- The `max_attempts = 3` parse/validate/salvage loop of
`generate_decision` (lines 362–405), with `n` = attempts remaining *after*
the current one (`n = 0` is the last attempt). -/
def decisionAttemptLoop : Nat → String → JValue
  | 0, _ => defaultDecisionJ
  | n + 1, s =>
    match jsonLoads s with
    | .ok d =>
      if validateDecision d then d
      else
        let d2 := fixDecisionStructure d
        if validateDecision d2 then d2
        else if n = 0 then defaultDecisionJ
        else decisionAttemptLoop n s
    | .error e =>
      if n = 0 then defaultDecisionJ
      else decisionAttemptLoop n (decisionRepairStep s e)

/-- `DecisionFeedbackAgent.generate_decision` (ATS-Portal, lines 314–409).
Control flow: a transport error from the collaborator returns the default
immediately (inner `except` at lines 347–350); a completion that parses
as-is returns it when it validates — when it does *not* validate, the code
falls through to the attempt loop with `cleaned_json` unbound, raising
`NameError`, which the outer `except Exception` turns into the default; a
completion that does not parse is cleaned (`clean_json_response`, whose own
`NameError` also lands in the outer handler) and fed to the attempt loop. -/
def generateDecision (collab : Except PyErr String) : JValue :=
  match collab with
  | .error _ => defaultDecisionJ
  | .ok completion =>
    match jsonLoads completion with
    | .ok d => if validateDecision d then d else defaultDecisionJ
    | .error _ =>
      match decisionCleanJsonResponse completion with
      | .error _ => defaultDecisionJ
      | .ok cleaned => decisionAttemptLoop 3 cleaned

/-- The repair applied between parse attempts of `match_job`
(lines 199–208): only `"Unterminated string"` errors trigger a quote
insertion; any other error leaves the string unchanged. -/
def matchRepairStep (s : String) (e : JErr) : String :=
  if e.kind = .unterminatedString then
    let lc := errLineCol s e.pos
    insertAtLineCol '"' s lc.1 lc.2
  else s

/-- The `max_attempts = 3` loop of `match_job` (lines 176–208).  Unlike the
decision loop, the last-attempt check precedes the salvage attempt. -/
def matchAttemptLoop : Nat → String → JValue
  | 0, _ => defaultAnalysisJ
  | n + 1, s =>
    match jsonLoads s with
    | .ok a =>
      if validateMatchAnalysis a then a
      else if n = 0 then defaultAnalysisJ
      else
        let a2 := fixAnalysisStructure a
        if validateMatchAnalysis a2 then a2
        else matchAttemptLoop n s
    | .error e =>
      if n = 0 then defaultAnalysisJ
      else matchAttemptLoop n (matchRepairStep s e)

/-- `JobMatchingAgent.match_job` (ATS-Portal, lines 147–215): a transport
error propagates to the outer `except Exception`, which returns the default
analysis without any repair; otherwise the completion is cleaned and the
parse/validate/salvage loop runs. -/
def matchJob (collab : Except PyErr String) : JValue :=
  match collab with
  | .error _ => defaultAnalysisJ
  | .ok completion => matchAttemptLoop 3 (jobCleanJsonResponse completion)

/-! ## `ParserAgent.get_candidate_level` (oa_module final, lines 100–114;
identical in `ATS With pydantic and outputs markdown/agents/resume_parsing_agent.py`,
lines 87–101)

Experience entries are dicts with string values (the function reads
`exp.get("duration", "0")` and calls `.split()` on it, so only the
string-valued `duration` field matters); an entry is modelled as an
association list of strings. -/

/-- Python `float(str)`: optional sign, digits with an optional fractional
part (at least one digit overall, `"1."` and `".5"` accepted), optional
exponent; surrounding whitespace stripped.  (`inf`/`nan`/underscores are not
modelled — irrelevant to duration tokens.)  `none` models the `ValueError`. -/
def pyFloat? (s : String) : Option ℚ :=
  let l := stripL s.toList
  let (neg, l1) : Bool × List Char :=
    match l with
    | '+' :: t => (false, t)
    | '-' :: t => (true, t)
    | _ => (false, l)
  let (ids, l2) := takeDigits l1
  let (hasDot, fds, l3) : Bool × List Char × List Char :=
    match l2 with
    | '.' :: t =>
      let (fds, t2) := takeDigits t
      (true, fds, t2)
    | _ => (false, [], l2)
  if ids.isEmpty ∧ fds.isEmpty then none  -- no digits at all (also bare "." / "")
  else
    let base : ℚ := (digitsToNat ids : ℚ) +
      (if hasDot then (digitsToNat fds : ℚ) / ((10 : ℚ) ^ fds.length) else 0)
    match l3 with
    | 'e' :: t | 'E' :: t =>
      let (esign, t1) : Bool × List Char :=
        match t with
        | '-' :: u => (true, u)
        | '+' :: u => (false, u)
        | _ => (false, t)
      let (eds, t2) := takeDigits t1
      if eds.isEmpty ∨ ¬ t2.isEmpty then none
      else
        let ex : ℤ := if esign then -(digitsToNat eds : ℤ) else (digitsToNat eds : ℤ)
        some ((if neg then -base else base) * (10 : ℚ) ^ ex)
    | [] => some (if neg then -base else base)
    | _ => none  -- trailing garbage: ValueError

/-- `s.split()[0]`: the first whitespace-delimited token; `none` models the
`IndexError` when the string has no tokens. -/
def pySplitFirst? (s : String) : Option String :=
  let l := s.toList.dropWhile isPyWs
  if l.isEmpty then none else some (String.mk (l.takeWhile (fun c => ¬ isPyWs c)))

/-- Assoc-list lookup for a string-valued dict. -/
def lookupStr (d : List (String × String)) (k : String) : Option String :=
  match d with
  | [] => none
  | (k0, v0) :: rest => if k0 = k then some v0 else lookupStr rest k

/-- `sum(float(exp.get("duration", "0").split()[0]) for exp in
resume.experience if "duration" in exp)`.  The `"0"` default of `.get` is
dead code (the generator filters on `"duration" in exp` first).  There is
*no* `try`/`except` around `float(...)`: a token that does not parse as a
float raises `ValueError`, and an empty/whitespace duration raises
`IndexError` at `[0]` — both propagate out of the function. -/
def totalExperience (experience : List (List (String × String))) : Except PyErr ℚ :=
  experience.foldlM
    (fun acc exp =>
      match lookupStr exp "duration" with
      | none => .ok acc
      | some dur =>
        match pySplitFirst? dur with
        | none => .error PyErr.indexError
        | some tok =>
          match pyFloat? tok with
          | none => .error PyErr.valueError
          | some q => .ok (acc + q))
    0

/-- The bucket thresholds of `get_candidate_level`:
`< 2` → junior, `< 5` → mid, otherwise senior. -/
def classifyLevel (total : ℚ) : String :=
  if total < 2 then "junior" else if total < 5 then "mid" else "senior"

/-- `ParserAgent.get_candidate_level`: total the duration figures, then
bucket. -/
def getCandidateLevel (experience : List (List (String × String))) :
    Except PyErr String :=
  match totalExperience experience with
  | .ok t => .ok (classifyLevel t)
  | .error e => .error e

/-! ## `JobMatchingAgent._transform_api_response`
(`ATS With pydantic/agents/job_matching_agent.py`, lines 146–234) -/

/-- Python truthiness of a parsed JSON value. -/
def pyTruthy : JValue → Bool
  | .null => false
  | .bool b => b
  | .num q => q ≠ 0
  | .str s => ¬ s.isEmpty
  | .arr l => ¬ l.isEmpty
  | .obj l => ¬ l.isEmpty

/-- `f"{x}"` for the values that occur in the insight lists (string values
format as themselves; numbers as their integer/rational rendering — an
approximation of CPython float repr, irrelevant to the claims). -/
def pyFormat : JValue → String
  | .str s => s
  | .num q => if q.den = 1 then toString q.num else toString q
  | .bool true => "True"
  | .bool false => "False"
  | .null => "None"
  | .arr _ => "[...]"
  | .obj _ => "\x7b...\x7d"

/-- Iterating a value in a list comprehension: lists yield their elements,
strings their characters; anything else raises `TypeError`. -/
def pyIter : JValue → Except PyErr (List JValue)
  | .arr l => .ok l
  | .str s => .ok (s.toList.map (fun c => .str (String.mk [c])))
  | _ => .error .typeError

/-- `d.get(k, dflt)`. -/
def jGet (kvs : List (String × JValue)) (k : String) (dflt : JValue) : JValue :=
  (lookupKey kvs k).getD dflt

/-- `.get` on a value that must be a dict; non-dicts raise
(`AttributeError`, folded into `typeError`). -/
def asObjE : JValue → Except PyErr (List (String × JValue))
  | .obj kvs => .ok kvs
  | _ => .error .typeError

/-- `x / 100.0`: numeric values (including bools) divide; anything else
raises `TypeError`.  Rationals model Python floats exactly on these inputs. -/
def pyDiv100 : JValue → Except PyErr ℚ
  | v => match pyNum? v with
    | some q => .ok (q / 100)
    | none => .error .typeError

/-- `JobMatchingAgent._combine_matches_gaps` (lines 236–245); the arguments
are the `matches` and `gaps` values. -/
def combineMatchesGaps (matchesV gapsV : JValue) : Except PyErr (List String) := do
  let r1 ←
    if pyTruthy matchesV then do
      let ms ← pyIter matchesV
      pure ("Matches:" :: ms.map (fun m => "+ " ++ pyFormat m))
    else pure []
  let r2 ←
    if pyTruthy gapsV then do
      let gs ← pyIter gapsV
      pure ("Gaps:" :: gs.map (fun g => "- " ++ pyFormat g))
    else pure []
  let result := r1 ++ r2
  pure (if result.isEmpty then ["No specific details available"] else result)

/-- The minimal structure `_transform_api_response` returns from its
`except` handler (lines 259–269). -/
def errorTransformResult : JValue :=
  .obj [
    ("overall_match_score", .num 0),
    ("skills_match", .obj [("score", .num 0),
      ("details", .arr [.str "Error transforming API response"])]),
    ("experience_match", .obj [("score", .num 0),
      ("details", .arr [.str "Error transforming API response"])]),
    ("education_match", .obj [("score", .num 0),
      ("details", .arr [.str "Error transforming API response"])]),
    ("additional_insights", .arr [.str "Error occurred while transforming the analysis results"])]

/-- The `try` body of `_transform_api_response` (lines 148–257): every score
read with `.get(_, 0)` and divided by 100 at the boundary.  The
`additional` section is extracted (line 161) but never written to the
transformed structure — only `skills`/`experience`/`education` breakdowns
and the `additional_insights` list are produced. -/
def transformBody (raw : JValue) : Except PyErr JValue := do
  let kvs ← asObjE raw
  let matchScore ← pyDiv100 (jGet kvs "match_score" (.num 0))
  let anKvs ← asObjE (jGet kvs "analysis" (.obj []))
  let skills ← asObjE (jGet anKvs "skills" (.obj []))
  let experience ← asObjE (jGet anKvs "experience" (.obj []))
  let education ← asObjE (jGet anKvs "education" (.obj []))
  let _additional ← asObjE (jGet anKvs "additional" (.obj []))
  let skillsScore ← pyDiv100 (jGet skills "score" (.num 0))
  let skillsDetails ← combineMatchesGaps (jGet skills "matches" (.arr []))
    (jGet skills "gaps" (.arr []))
  let expScore ← pyDiv100 (jGet experience "score" (.num 0))
  let expDetails ← combineMatchesGaps (jGet experience "matches" (.arr []))
    (jGet experience "gaps" (.arr []))
  let eduScore ← pyDiv100 (jGet education "score" (.num 0))
  let eduDetails ← combineMatchesGaps (jGet education "matches" (.arr []))
    (jGet education "gaps" (.arr []))
  let recommendation := jGet kvs "recommendation" (.str "")
  let ins0 : List JValue := if pyTruthy recommendation then [recommendation] else []
  let strengths := jGet kvs "key_strengths" (.arr [])
  let considerations := jGet kvs "areas_for_consideration" (.arr [])
  let ins1 ←
    if pyTruthy strengths then do
      let ss ← pyIter strengths
      pure (ins0 ++ JValue.str "Key Strengths:" :: ss.map (fun s => .str ("+ " ++ pyFormat s)))
    else pure ins0
  let ins2 ←
    if pyTruthy considerations then do
      let cs ← pyIter considerations
      pure (ins1 ++ JValue.str "Areas for Consideration:" :: cs.map (fun a => .str ("- " ++ pyFormat a)))
    else pure ins1
  let insights := if ins2.isEmpty then [JValue.str "No additional insights available"] else ins2
  pure (.obj [
    ("overall_match_score", .num matchScore),
    ("skills_match", .obj [("score", .num skillsScore),
      ("details", .arr (skillsDetails.map .str))]),
    ("experience_match", .obj [("score", .num expScore),
      ("details", .arr (expDetails.map .str))]),
    ("education_match", .obj [("score", .num eduScore),
      ("details", .arr (eduDetails.map .str))]),
    ("additional_insights", .arr insights)])

/-- `JobMatchingAgent._transform_api_response`: the `try` body, with any
exception mapped to the minimal valid structure by the handler. -/
def transformApiResponse (raw : JValue) : JValue :=
  match transformBody raw with
  | .ok v => v
  | .error _ => errorTransformResult

/-! ## `ResumeParsingAgent` (ATS-Portal): template conversion and entry point

`convert_template_to_json` (lines 70–296) extracts labelled fields and
sections from the collaborator's template-formatted output with a battery of
`re.search` / `re.finditer` patterns.  Each pattern is modelled by a direct
scanner with the same intent; corner cases of regex backtracking (entries
whose `\s*` gaps span line breaks, matches found only at a *later*
occurrence of a label) are simplified line-locally / first-occurrence — the
differences affect only which text ends up in the extracted string fields,
never the shape of the resulting record, which is what is proved about this
function. -/

/-- Case-insensitive substring search (`re.IGNORECASE`). -/
def findSubIdxCI (needle hay : List Char) : Option Nat :=
  findSubIdx (needle.map Char.toLower) (hay.map Char.toLower)

/-- `re.search(label + r'\s*(.*?)(?=\n)', t, re.IGNORECASE)` for the
personal-info labels (`NAME:` …): after the label, greedy `\s*` then a lazy
capture up to the next newline.  When no newline follows the whitespace run
the regex backtracks into the run and captures the empty string just before
a newline inside it; with no newline at all there is no match. -/
def extractLabeled (label : String) (t : String) : Option String :=
  match findSubIdxCI label.toList t.toList with
  | none => none
  | some i =>
    let rest := t.toList.drop (i + label.length)
    let ws := rest.takeWhile isPyWs
    let r1 := rest.drop ws.length
    if r1.contains '\n' then some (String.mk (r1.takeWhile (· ≠ '\n')))
    else if ws.contains '\n' then some ""
    else none

/-- `group(1).strip()` filtered against the placeholder strings; the
result is assigned over the `""` default, so a missing match and a
placeholder both leave `""`. -/
def cleanField (placeholders : List String) (raw : Option String) : String :=
  match raw with
  | some v =>
    let v2 := pyStrip v
    if placeholders.contains v2 then "" else v2
  | none => ""

/-- Earliest index at which one of the stop markers begins
(case-insensitively, as `re.IGNORECASE` covers the literal alternatives). -/
def findStopIdx (stops : List String) : List Char → Option Nat
  | [] => none
  | c :: t =>
    if stops.any (fun st => (st.toList.map Char.toLower).isPrefixOf
        ((c :: t).map Char.toLower)) then some 0
    else (findStopIdx stops t).map (· + 1)

/-- `re.search(label + r'\s*\n(.*?)(?=STOP|…)', t, re.DOTALL | re.IGNORECASE)`
for the section headers: the greedy `\s*\n` places the capture start just
after the *last* newline of the whitespace run following the label; the lazy
capture extends to the earliest stop marker (or, when the pattern ends with
`|$`, to the end of the text). -/
def sectionCapture (label : String) (stops : List String) (allowEnd : Bool)
    (t : String) : Option String :=
  match findSubIdxCI label.toList t.toList with
  | none => none
  | some i =>
    let rest := t.toList.drop (i + label.length)
    let ws := rest.takeWhile isPyWs
    if ¬ ws.contains '\n' then none
    else
      let tailWs := (ws.reverse.takeWhile (· ≠ '\n')).reverse
      let start := rest.drop (ws.length - tailWs.length)
      match findStopIdx stops start with
      | some p => some (String.mk (start.take p))
      | none => if allowEnd then some (String.mk start) else none

/-- One `- g1 | g2 | g3` entry match plus its following details window. -/
structure TriEntry where
  g1 : String
  g2 : String
  g3 : String
  details : String
deriving Repr

/-- Split a line at its first two `|` separators. -/
def splitTwoBars (line : List Char) : Option (List Char × List Char × List Char) :=
  match findSubIdx ['|'] line with
  | none => none
  | some i =>
    let r := line.drop (i + 1)
    match findSubIdx ['|'] r with
    | none => none
    | some j => some (line.take i, r.take j, r.drop (j + 1))

/-- `re.finditer(r'-\s*(.*?)\s*\|\s*(.*?)\s*\|\s*(.*?)(?=\n|$)', text)` with
the source's details window `text[match.end() : text.find('-', match.end())]`
— scanning dashes left to right, matching line-locally, groups stripped (as
every use site strips them). -/
def triEntriesAux : Nat → List Char → List TriEntry
  | 0, _ => []
  | _ + 1, [] => []
  | n + 1, l =>
    match findSubIdx ['-'] l with
    | none => []
    | some i =>
      let afterDash := l.drop (i + 1)
      let line := afterDash.takeWhile (· ≠ '\n')
      match splitTwoBars line with
      | some (g1, g2, g3) =>
        let matchEnd := afterDash.drop line.length
        let window :=
          match findSubIdx ['-'] matchEnd with
          | some j => matchEnd.take j
          | none => matchEnd
        ⟨String.mk (stripL g1), String.mk (stripL g2), String.mk (stripL g3),
         String.mk window⟩ :: triEntriesAux n matchEnd
      | none => triEntriesAux n afterDash

/-- String wrapper for `triEntriesAux`. -/
def triEntries (s : String) : List TriEntry :=
  triEntriesAux s.toList.length s.toList

/-- `re.search(r'\*\s*' + label + r'\s*(.*?)(?=\n|\*|$)', window)` for the
detail fields (`Field:`, `GPA:`, `Location:`, `Technologies:`, `URL:`):
a `*`, whitespace, the label, whitespace, then a capture up to the earliest
`\n` / `*` / end. -/
def starLabeledAux (label : List Char) : Nat → List Char → Option String
  | 0, _ => none
  | _ + 1, [] => none
  | n + 1, l =>
    match findSubIdx ['*'] l with
    | none => none
    | some i =>
      let after := l.drop (i + 1)
      let r1 := after.dropWhile isPyWs
      if label.isPrefixOf r1 then
        let r2 := (r1.drop label.length).dropWhile isPyWs
        let cap := r2.takeWhile (fun c => c ≠ '\n' ∧ c ≠ '*')
        some (String.mk cap)
      else starLabeledAux label n after

/-- String wrapper for `starLabeledAux`. -/
def starLabeled (label : String) (window : String) : Option String :=
  starLabeledAux label.toList window.toList.length window.toList

/-- An education entry dict (lines 143–149): `degree | institution | date`
with optional `Field:` / `GPA:` details. -/
def eduEntryJ (e : TriEntry) : JValue :=
  .obj [
    ("institution", .str e.g2),
    ("degree", .str e.g1),
    ("field", .str (pyStrip ((starLabeled "Field:" e.details).getD ""))),
    ("graduation_date", .str e.g3),
    ("gpa", .str (pyStrip ((starLabeled "GPA:" e.details).getD "")))]

/-- The responsibilities of an experience entry (lines 186–193): stripped
lines of the details window that start with `*` but not with `* Location:`,
minus the leading `*`, kept when non-empty. -/
def respsOf (window : String) : List String :=
  (window.splitOn "\n").filterMap (fun ln =>
    let l := pyStrip ln
    if startsWithS "*" l ∧ ¬ startsWithS "* Location:" l then
      let r := pyStrip (dropS 1 l)
      if r = "" then none else some r
    else none)

/-- An experience entry dict (lines 157–203): `title | company | dates`,
with the dates split at the first `-` (or `end_date = "Present"`),
an optional `Location:` detail and the `*` lines as responsibilities
(`achievements` always empty in this format). -/
def expEntryJ (e : TriEntry) : JValue :=
  let dates := e.g3
  let startEnd : String × String :=
    if containsSub dates "-" then
      let parts := dates.splitOn "-"
      (pyStrip ((parts[0]?).getD ""), pyStrip ((parts[1]?).getD ""))
    else (dates, "Present")
  .obj [
    ("company", .str e.g2),
    ("title", .str e.g1),
    ("location", .str (pyStrip ((starLabeled "Location:" e.details).getD ""))),
    ("start_date", .str startEnd.1),
    ("end_date", .str startEnd.2),
    ("responsibilities", .arr ((respsOf e.details).map .str)),
    ("achievements", .arr [])]

/-- A certification entry (lines 278–288), kept only when the name is
non-empty and not a placeholder. -/
def certEntryJ (e : TriEntry) : Option JValue :=
  if e.g1 ≠ "" ∧ ¬ ["[Certification name]", "Not provided", "None listed"].contains e.g1 then
    some (.obj [("name", .str e.g1), ("issuer", .str e.g2), ("date", .str e.g3)])
  else none

/-- A `- name | type` project entry match plus its details window. -/
structure ProjEntry where
  g1 : String
  g2 : String
  details : String
deriving Repr

/-- `re.finditer(r'-\s*(.*?)(?:\s*\|\s*(.*?))?(?=\n|$)', proj_text)`:
the optional second group takes everything after the first `|` of the line. -/
def projEntriesAux : Nat → List Char → List ProjEntry
  | 0, _ => []
  | _ + 1, [] => []
  | n + 1, l =>
    match findSubIdx ['-'] l with
    | none => []
    | some i =>
      let afterDash := l.drop (i + 1)
      let line := afterDash.takeWhile (· ≠ '\n')
      let (g1, g2) : List Char × List Char :=
        match findSubIdx ['|'] line with
        | some j => (line.take j, line.drop (j + 1))
        | none => (line, [])
      let matchEnd := afterDash.drop line.length
      let window :=
        match findSubIdx ['-'] matchEnd with
        | some j => matchEnd.take j
        | none => matchEnd
      ⟨String.mk (stripL g1), String.mk (stripL g2), String.mk window⟩ ::
        projEntriesAux n matchEnd

/-- String wrapper for `projEntriesAux`. -/
def projEntries (s : String) : List ProjEntry :=
  projEntriesAux s.toList.length s.toList

/-- `re.search(r'\*\s*(.*?)(?=\n\s*\*|$)', entry_details)` (lines 247–249):
the first `*` whose following line is either the last line of the window or
followed (after whitespace) by another `*` line. -/
def descCaptureAux : Nat → List Char → Option String
  | 0, _ => none
  | _ + 1, [] => none
  | n + 1, l =>
    match findSubIdx ['*'] l with
    | none => none
    | some i =>
      let after := l.drop (i + 1)
      let c0 := after.dropWhile isPyWs
      let cap := c0.takeWhile (· ≠ '\n')
      let rest := c0.drop cap.length
      match rest with
      | [] => some (String.mk cap)
      | '\n' :: t =>
        if (t.dropWhile isPyWs).head? = some '*' then some (String.mk cap)
        else descCaptureAux n after
      | _ => descCaptureAux n after

/-- String wrapper for `descCaptureAux`. -/
def descCapture (window : String) : Option String :=
  descCaptureAux window.toList.length window.toList

/-- `re.search(label + r'\s*(.*?)(?=STOP|…|$)', skills_text, re.IGNORECASE)`
for the inline skill labels: whitespace after the label, then a capture up
to the earliest stop (`\n`, a following label) or the end. -/
def inlineLabeled (label : String) (stops : List String) (t : String) : Option String :=
  match findSubIdxCI label.toList t.toList with
  | none => none
  | some i =>
    let rest := t.toList.drop (i + label.length)
    let r1 := rest.dropWhile isPyWs
    match findStopIdx stops r1 with
    | some p => some (String.mk (r1.take p))
    | none => some (String.mk r1)

/-- `re.search(r'Technical:\s*(.*?)(?=\n|Soft:|$)', skills_text, re.IGNORECASE)`. -/
def inlineLabeledTech (t : String) : Option String :=
  inlineLabeled "Technical:" ["\n", "Soft:"] t

/-- `re.search(r'Soft:\s*(.*?)(?=\n|$)', skills_text, re.IGNORECASE)`. -/
def inlineLabeledSoft (t : String) : Option String :=
  inlineLabeled "Soft:" ["\n"] t

/-- A comma-separated skill/technology list: stripped, placeholder-filtered,
split on `,` with each part stripped. -/
def skillList (placeholders : List String) (raw : Option String) : List String :=
  match raw with
  | some v0 =>
    let v := pyStrip v0
    if v ≠ "" ∧ ¬ placeholders.contains v then (v.splitOn ",").map pyStrip
    else []
  | none => []

/-- A project entry dict (lines 228–270), kept only when the name is
non-empty and not a placeholder; the type (second group) is appended to the
name after `" | "` when present. -/
def projEntryJ (e : ProjEntry) : Option JValue :=
  if e.g1 ≠ "" ∧ ¬ ["[Project name]", "Not provided", "None listed"].contains e.g1 then
    let techs := skillList [] ((starLabeled "Technologies:" e.details).map pyStrip)
    some (.obj [
      ("name", .str (e.g1 ++ (if e.g2 ≠ "" then " | " ++ e.g2 else ""))),
      ("description", .str (pyStrip ((descCapture e.details).getD ""))),
      ("technologies", .arr (techs.map .str)),
      ("url", .str (pyStrip ((starLabeled "URL:" e.details).getD "")))])
  else none

/-- `ResumeParsingAgent.create_empty_structure` (lines 298–316). -/
def createEmptyStructure : JValue :=
  .obj [
    ("personal_info", .obj [
      ("name", .str ""), ("email", .str ""), ("phone", .str ""), ("location", .str "")]),
    ("summary", .str ""),
    ("education", .arr []),
    ("experience", .arr []),
    ("skills", .obj [("technical", .arr []), ("soft", .arr [])]),
    ("certifications", .arr []),
    ("projects", .arr [])]

/-- `ResumeParsingAgent.convert_template_to_json` (lines 70–296): start from
the skeleton and fill in whatever the extractors find.  The internal
`try`/`except` (which would fall back to the empty structure) is
unreachable in the model — none of the pure extractors raises. -/
def convertTemplateToJson (t : String) : JValue :=
  let name := cleanField ["[Full name of the candidate]", "Not provided"]
    (extractLabeled "NAME:" t)
  let email := cleanField ["[Email address]", "Not provided"]
    (extractLabeled "EMAIL:" t)
  let phone := cleanField ["[Phone number]", "Not provided"]
    (extractLabeled "PHONE:" t)
  let location := cleanField ["[City, State/Country]", "Not provided"]
    (extractLabeled "LOCATION:" t)
  let summary := cleanField ["[Brief professional summary]", "Not provided"]
    (sectionCapture "SUMMARY:" ["\n\n", "EDUCATION:"] false t)
  let eduEntries :=
    match sectionCapture "EDUCATION:" ["\n\n", "EXPERIENCE:"] false t with
    | some sec => (triEntries sec).map eduEntryJ
    | none => []
  let expEntries :=
    match sectionCapture "EXPERIENCE:" ["\n\n", "SKILLS:"] false t with
    | some sec => (triEntries sec).map expEntryJ
    | none => []
  let skillsSec := sectionCapture "SKILLS:"
    ["\n\n", "PROJECTS:", "CERTIFICATIONS:", "ADDITIONAL INFO:"] true t
  let techSkills :=
    match skillsSec with
    | some sec => skillList ["[List all technical skills]", "Not provided", "None listed"]
        ((inlineLabeledTech sec).map pyStrip)
    | none => []
  let softSkills :=
    match skillsSec with
    | some sec => skillList ["[List all soft skills]", "Not provided", "None listed"]
        ((inlineLabeledSoft sec).map pyStrip)
    | none => []
  let projectEntries :=
    match sectionCapture "PROJECTS:" ["\n\n", "CERTIFICATIONS:", "ADDITIONAL INFO:"] true t with
    | some sec => (projEntries sec).filterMap projEntryJ
    | none => []
  let certEntries :=
    match sectionCapture "CERTIFICATIONS:" ["\n\n", "ADDITIONAL INFO:"] true t with
    | some sec => (triEntries sec).filterMap certEntryJ
    | none => []
  .obj [
    ("personal_info", .obj [
      ("name", .str name), ("email", .str email),
      ("phone", .str phone), ("location", .str location)]),
    ("summary", .str summary),
    ("education", .arr eduEntries),
    ("experience", .arr expEntries),
    ("skills", .obj [
      ("technical", .arr (techSkills.map .str)),
      ("soft", .arr (softSkills.map .str))]),
    ("certifications", .arr certEntries),
    ("projects", .arr projectEntries)]

/-- `ResumeParsingAgent.validate_structured_data` (lines 318–336): some
personal-info value non-empty, or one of the education / experience /
technical-skill / soft-skill / project lists non-empty.  `parse_resume`
only logs a warning on `False` and returns the data regardless. -/
def validateStructuredData (d : JValue) : Bool :=
  match d with
  | .obj kvs =>
    (match objField kvs "personal_info" with
     | some pi => pi.any (fun kv => pyTruthy kv.2)
     | none => false) ||
    (match lookupKey kvs "education" with
     | some (.arr l) => ¬ l.isEmpty
     | _ => false) ||
    (match lookupKey kvs "experience" with
     | some (.arr l) => ¬ l.isEmpty
     | _ => false) ||
    (match objField kvs "skills" with
     | some sk =>
       (match lookupKey sk "technical" with
        | some (.arr l) => ¬ l.isEmpty
        | _ => false) ||
       (match lookupKey sk "soft" with
        | some (.arr l) => ¬ l.isEmpty
        | _ => false)
     | none => false) ||
    (match lookupKey kvs "projects" with
     | some (.arr l) => ¬ l.isEmpty
     | _ => false)
  | _ => false

/-- `ResumeParsingAgent.parse_resume` (ATS-Portal, lines 25–68): empty or
whitespace-only resume text raises `ValueError`, caught by the method's own
handler (empty structure); a transport error from the collaborator likewise;
otherwise the template output is converted and returned even when
`validate_structured_data` fails (that failure only logs a warning). -/
def parseResume (resumeText : String) (collab : Except PyErr String) : JValue :=
  if pyStrip resumeText = "" then createEmptyStructure
  else
    match collab with
    | .error _ => createEmptyStructure
    | .ok completion => convertTemplateToJson completion

/-! ## Shape predicates and accessors used by the theorems -/

/-- A list value all of whose elements are strings. -/
def strListOk : JValue → Bool
  | .arr l => l.all isStr
  | _ => false

/-- Shape of an education entry produced by the template conversion. -/
def eduEntryOk : JValue → Bool
  | .obj [("institution", a), ("degree", b), ("field", c), ("graduation_date", d), ("gpa", e)] =>
    isStr a && isStr b && isStr c && isStr d && isStr e
  | _ => false

/-- Shape of an experience entry produced by the template conversion. -/
def expEntryOk : JValue → Bool
  | .obj [("company", a), ("title", b), ("location", c), ("start_date", d),
          ("end_date", e), ("responsibilities", r), ("achievements", ach)] =>
    isStr a && isStr b && isStr c && isStr d && isStr e && strListOk r && strListOk ach
  | _ => false

/-- Shape of a certification entry. -/
def certEntryOk : JValue → Bool
  | .obj [("name", a), ("issuer", b), ("date", c)] => isStr a && isStr b && isStr c
  | _ => false

/-- Shape of a project entry. -/
def projEntryOk : JValue → Bool
  | .obj [("name", a), ("description", b), ("technologies", te), ("url", u)] =>
    isStr a && isStr b && strListOk te && isStr u
  | _ => false

/-- The `ParsedResume` record shape that `parse_resume` promises its
callers: the seven top-level keys, string personal-info/summary fields,
entry lists of the right shapes, and the two skill lists. -/
def resumeShapeOk : JValue → Bool
  | .obj [("personal_info", .obj [("name", n), ("email", em), ("phone", p), ("location", lo)]),
          ("summary", s),
          ("education", .arr ed),
          ("experience", .arr ex),
          ("skills", .obj [("technical", te), ("soft", so)]),
          ("certifications", .arr ce),
          ("projects", .arr pr)] =>
    isStr n && isStr em && isStr p && isStr lo && isStr s &&
    ed.all eduEntryOk && ex.all expEntryOk && strListOk te && strListOk so &&
    ce.all certEntryOk && pr.all projEntryOk
  | _ => false

/-- Top-level field of an object value. -/
def fieldPath1 (v : JValue) (k : String) : Option JValue :=
  match v with
  | .obj kvs => lookupKey kvs k
  | _ => none

/-- Field of an object-valued top-level field. -/
def fieldPath2 (v : JValue) (k1 k2 : String) : Option JValue :=
  match v with
  | .obj kvs =>
    match objField kvs k1 with
    | some sub => lookupKey sub k2
    | none => none
  | _ => none

/-- Three-level field access. -/
def fieldPath3 (v : JValue) (k1 k2 k3 : String) : Option JValue :=
  match v with
  | .obj kvs =>
    match objField kvs k1 with
    | some sub =>
      match objField sub k2 with
      | some sub2 => lookupKey sub2 k3
      | none => none
    | none => none
  | _ => none

/-- Keys of an object value (`[]` for non-objects). -/
def innerKeys : JValue → List String
  | .obj sub => sub.map Prod.fst
  | _ => []

/-- The two-level key structure of a record: each top-level key with the
keys of its (object) value. -/
def shapeOf : JValue → List (String × List String)
  | .obj kvs => kvs.map (fun kv => (kv.1, innerKeys kv.2))
  | _ => []

/-- A decision object whose `decision.status` is the valid `"PROCEED"` but
whose `decision.confidence_score` is the out-of-range `150` — every other
field well-formed. -/
def c2Fields : List (String × JValue) :=
  [("decision", .obj [
     ("status", .str "PROCEED"),
     ("confidence_score", .num 150),
     ("interview_stage", .str "TECHNICAL")]),
   ("rationale", .obj [
     ("key_strengths", .arr [.str "strong python"]),
     ("concerns", .arr []),
     ("risk_factors", .arr [])]),
   ("recommendations", .obj [
     ("interview_focus", .arr [.str "system design"]),
     ("skill_verification", .arr []),
     ("discussion_points", .arr [])]),
   ("hiring_manager_notes", .obj [
     ("salary_band_fit", .str "within band"),
     ("growth_trajectory", .str "steep"),
     ("team_fit_considerations", .str "good"),
     ("onboarding_requirements", .arr [])]),
   ("next_steps", .obj [
     ("immediate_actions", .arr [.str "schedule"]),
     ("required_approvals", .arr []),
     ("timeline_recommendation", .str "two weeks")])]

/-- A parsed match-analysis record whose `skills.matches` is a number and
`skills.gaps` a string (not lists), with everything else well-formed. -/
def c5Input : JValue :=
  .obj [
    ("match_score", .num 50),
    ("analysis", .obj [
      ("skills", .obj [("score", .num 50), ("matches", .num 5), ("gaps", .str "none")]),
      ("experience", .obj [("score", .num 50), ("matches", .arr []), ("gaps", .arr [])]),
      ("education", .obj [("score", .num 50), ("matches", .arr []), ("gaps", .arr [])]),
      ("additional", .obj [("score", .num 50), ("matches", .arr []), ("gaps", .arr [])])]),
    ("recommendation", .str "Proceed"),
    ("key_strengths", .arr []),
    ("areas_for_consideration", .arr [])]

/-- The acceptance condition of `validate_match_analysis` spelled out as a
predicate, for the amended C5: the five top-level keys are present,
`analysis` is an object whose four category keys each hold an object with
`score` / `matches` / `gaps` keys and a numeric score in `[0, 100]` — the
`matches` / `gaps` *values* are unconstrained. -/
def amendedMatchValid (a : JValue) : Prop :=
  ∃ kvs an, a = .obj kvs ∧
    hasKey kvs "match_score" = true ∧
    hasKey kvs "recommendation" = true ∧
    hasKey kvs "key_strengths" = true ∧
    hasKey kvs "areas_for_consideration" = true ∧
    lookupKey kvs "analysis" = some (.obj an) ∧
    ∀ k ∈ (["skills", "experience", "education", "additional"] : List String),
      ∃ comp v q, objField an k = some comp ∧
        hasKey comp "matches" = true ∧ hasKey comp "gaps" = true ∧
        lookupKey comp "score" = some v ∧ pyNum? v = some q ∧ 0 ≤ q ∧ q ≤ 100

/-- A raw API response carrying `match_score = 72` and category scores on
the 0–100 scale. -/
def raw72Fields : List (String × JValue) :=
  [("match_score", .num 72),
   ("analysis", .obj [
     ("skills", .obj [("score", .num 80), ("matches", .arr [.str "python"]), ("gaps", .arr [])]),
     ("experience", .obj [("score", .num 60), ("matches", .arr []), ("gaps", .arr [.str "kubernetes"])]),
     ("education", .obj [("score", .num 90), ("matches", .arr []), ("gaps", .arr [])]),
     ("additional", .obj [("score", .num 40), ("matches", .arr []), ("gaps", .arr [])])]),
   ("recommendation", .str "Hire"),
   ("key_strengths", .arr [.str "solid fundamentals"]),
   ("areas_for_consideration", .arr [])]

/-- The transformed record for `raw72Fields`: every score divided by 100. -/
def raw72Out : JValue :=
  .obj [
    ("overall_match_score", .num (18 / 25)),
    ("skills_match", .obj [
      ("score", .num (4 / 5)),
      ("details", .arr [.str "Matches:", .str "+ python"])]),
    ("experience_match", .obj [
      ("score", .num (3 / 5)),
      ("details", .arr [.str "Gaps:", .str "- kubernetes"])]),
    ("education_match", .obj [
      ("score", .num (9 / 10)),
      ("details", .arr [.str "No specific details available"])]),
    ("additional_insights", .arr [
      .str "Hire", .str "Key Strengths:", .str "+ solid fundamentals"])]

/-! ## Helper lemmas -/

/-- The default decision record passes its validator. -/
theorem validate_default_decision : validateDecision defaultDecisionJ = true := by
  decide

/-- The default analysis record passes its validator. -/
theorem validate_default_analysis : validateMatchAnalysis defaultAnalysisJ = true := by
  decide

/-- The serialized default analysis parses back (so the job agent's repair
fallback is itself parseable). -/
theorem default_analysis_dump_parses :
    isOkE (jsonLoads (jsonDumps defaultAnalysisJ)) = true := by
  decide

/-! ## Claim theorems -/

/-- C9: each stage's Default Record Factory output satisfies that stage's
validator — `validate_decision(create_default_decision())` and
`validate_match_analysis(create_default_analysis())` are both true, so the
default-on-exhaustion path always returns a validator-accepted record. -/
theorem c9_defaults_satisfy_validators :
    validateDecision defaultDecisionJ = true ∧
    validateMatchAnalysis defaultAnalysisJ = true :=
  ⟨validate_default_decision, validate_default_analysis⟩

/-- C7: when the external generation call raises a transport-level error,
`generate_decision` (via its inner `except` around the request) and
`match_job` (via its outer `except`) return the stage's default record
immediately; by the structure of the model no repair function touches any
text on this path. -/
theorem c7_transport_error_returns_default (e : PyErr) :
    generateDecision (.error e) = defaultDecisionJ ∧
    matchJob (.error e) = defaultAnalysisJ :=
  ⟨rfl, rfl⟩

/-- C1 (counterexample): on the input `"not json at all"` the decision
agent's `clean_json_response` raises `NameError` (line 72 references `e`
after Python 3 unbound it at the end of the `except` clause) — it neither
returns a parseable string nor avoids raising, contradicting the claim. -/
theorem c1_decision_clean_raises_counterexample :
    decisionCleanJsonResponse "not json at all" = .error .nameError := by
  rfl

/-- C1 (amended): totality holds for the job-matching agent's
`clean_json_response`: for every input string it returns a string that
parses as JSON and never raises (an input whose basic cleaning fails takes
the dead-`e` `NameError` path, which the outer `except Exception` converts
into the serialized default analysis — itself parseable). -/
theorem c1_job_clean_always_parses (s : String) :
    isOkE (jsonLoads (jobCleanJsonResponse s)) = true := by
  unfold jobCleanJsonResponse
  cases h : isOkE (jsonLoads (fixJsonString s)) with
  | true => simp [h]
  | false => simpa [h] using default_analysis_dump_parses

/-- C6 (counterexample): `get_candidate_level` does *not* default to 0 on a
duration whose first token fails to parse as a float — `float("abc")` raises
`ValueError` with no surrounding `try`, so the input
`[{"duration": "abc years"}]` raises instead of classifying as "junior". -/
theorem c6_raises_on_unparseable_duration :
    getCandidateLevel [[("duration", "abc years")]] = .error .valueError ∧
    getCandidateLevel [[("duration", "abc years")]] ≠ .ok "junior" := by
  refine ⟨rfl, fun h => ?_⟩
  rw [show getCandidateLevel [[("duration", "abc years")]] = .error .valueError from rfl] at h
  exact Except.noConfusion h

/-- C6 (amended): `get_candidate_level` sums, over the entries that have a
`duration` key, the first whitespace-delimited token of the duration parsed
as a float, and classifies the total as junior (< 2), mid (< 5) or senior
(≥ 5) — exactly 2.0 is "mid", exactly 5.0 is "senior", 1.99 is "junior" —
but on a parse failure it *raises* (`ValueError`, or `IndexError` for an
empty duration) rather than defaulting the figure to 0. -/
theorem c6_candidate_level_amended (exps : List (List (String × String))) (t : ℚ)
    (h : totalExperience exps = .ok t) :
    getCandidateLevel exps = .ok (classifyLevel t) ∧
    classifyLevel 2 = "mid" ∧ classifyLevel 5 = "senior" ∧
    classifyLevel (199 / 100 : ℚ) = "junior" ∧
    totalExperience [[("duration", "2.5 years, approx")], [("duration", "1.5")]] = .ok 4 ∧
    getCandidateLevel [[("duration", "")]] = .error .indexError := by
  refine ⟨?_, by decide, by decide, by norm_num [classifyLevel],
    by with_unfolding_all rfl, rfl⟩
  unfold getCandidateLevel
  rw [h]

/-- C6 (witness): the amended theorem applied at a concrete two-year
experience list. -/
theorem c6_candidate_level_amended_witness :
    totalExperience [[("duration", "2 years")]] = .ok 2 ∧
    getCandidateLevel [[("duration", "2 years")]] = .ok "mid" := by
  have h := c6_candidate_level_amended [[("duration", "2 years")]] 2
    (by with_unfolding_all rfl)
  refine ⟨by with_unfolding_all rfl, ?_⟩
  have h1 := h.1
  rw [h.2.1] at h1
  exact h1

/-- C5 (counterexample): `validate_match_analysis` accepts a record whose
`skills.matches` is the number 5 and `skills.gaps` a string — the claim's
"only if the matches and gaps values are lists" is false (the validator
checks only that the keys exist). -/
theorem c5_accepts_nonlist_matches_counterexample :
    validateMatchAnalysis c5Input = true ∧
    fieldPath3 c5Input "analysis" "skills" "matches" = some (.num 5) ∧
    isList (.num 5) = false := by
  refine ⟨by decide, rfl, rfl⟩

/-- C5 (amended): the exact acceptance condition of
`validate_match_analysis`: the five top-level keys present, `analysis` an
object whose four category keys each hold an object that *has* `score`,
`matches` and `gaps` keys, with `score` numeric (Python bools count) in
`[0, 100]`; the `matches`/`gaps` values themselves are not required to be
lists. -/
theorem c5_validator_characterization (a : JValue) :
    validateMatchAnalysis a = true ↔ amendedMatchValid a := by
  have hobjField : ∀ (kvs : List (String × JValue)) (k : String) (sub : List (String × JValue)),
      objField kvs k = some sub ↔ lookupKey kvs k = some (.obj sub) := by
    intro kvs k sub
    unfold objField
    cases h : lookupKey kvs k with
    | none => simp
    | some v => cases v <;> simp
  have hcatIff : ∀ (an : List (String × JValue)) (k : String),
      categoryCheck an k = true ↔
        ∃ comp v q, objField an k = some comp ∧
          hasKey comp "matches" = true ∧ hasKey comp "gaps" = true ∧
          lookupKey comp "score" = some v ∧ pyNum? v = some q ∧ 0 ≤ q ∧ q ≤ 100 := by
    intro an k
    unfold categoryCheck
    cases hcomp : objField an k with
    | none => simp
    | some comp =>
      cases hscore : lookupKey comp "score" with
      | none => simp [hscore]
      | some v =>
        cases hq : pyNum? v with
        | none => simp [hscore, hq, numInRange100]
        | some q =>
          have hskey : hasKey comp "score" = true := by simp [hasKey, hscore]
          simp only [hscore, hskey, numInRange100, hq, Option.some.injEq,
            Bool.true_and, Bool.and_eq_true, decide_eq_true_eq]
          constructor
          · rintro ⟨⟨hm, hg⟩, h0, h1⟩
            exact ⟨comp, v, q, rfl, hm, hg, hscore, hq, h0, h1⟩
          · rintro ⟨comp2, v2, q2, hc2, hm2, hg2, hv2, hq2, h02, h12⟩
            cases hc2
            rw [hscore] at hv2
            injection hv2 with hv2
            subst hv2
            rw [hq] at hq2
            injection hq2 with hq2
            subst hq2
            exact ⟨⟨hm2, hg2⟩, h02, h12⟩
  constructor
  · intro h
    match a with
    | .null | .bool _ | .num _ | .str _ | .arr _ => simp [validateMatchAnalysis] at h
    | .obj kvs =>
      simp only [validateMatchAnalysis, Bool.and_eq_true] at h
      obtain ⟨⟨⟨⟨⟨h1, h2⟩, h3⟩, h4⟩, h5⟩, h6⟩ := h
      cases han : objField kvs "analysis" with
      | none => rw [han] at h6; exact absurd h6 (by simp)
      | some an =>
        rw [han] at h6
        simp only [Bool.and_eq_true, List.all_eq_true] at h6
        obtain ⟨⟨⟨⟨_, _⟩, _⟩, _⟩, hcat⟩ := h6
        refine ⟨kvs, an, rfl, h1, h3, h4, h5, (hobjField kvs "analysis" an).mp han, ?_⟩
        intro k hk
        exact (hcatIff an k).mp (hcat k hk)
  · rintro ⟨kvs, an, rfl, h1, h3, h4, h5, han, hcat⟩
    have hobj : objField kvs "analysis" = some an := (hobjField kvs "analysis" an).mpr han
    simp only [validateMatchAnalysis, hobj, Bool.and_eq_true, List.all_eq_true]
    have hkey : ∀ k ∈ (["skills", "experience", "education", "additional"] : List String),
        hasKey an k = true ∧ categoryCheck an k = true := by
      intro k hk
      obtain ⟨comp, v, q, hcomp, hm, hg, hscore, hq, hq0, hq1⟩ := hcat k hk
      have hlk : lookupKey an k = some (.obj comp) := (hobjField an k comp).mp hcomp
      refine ⟨by simp [hasKey, hlk], ?_⟩
      exact (hcatIff an k).mpr ⟨comp, v, q, hcomp, hm, hg, hscore, hq, hq0, hq1⟩
    have h2 : hasKey kvs "analysis" = true := by simp [hasKey, han]
    refine ⟨⟨⟨⟨⟨h1, h2⟩, h3⟩, h4⟩, h5⟩, ⟨⟨⟨⟨?_, ?_⟩, ?_⟩, ?_⟩, ?_⟩⟩
    · exact (hkey "skills" (by simp)).1
    · exact (hkey "experience" (by simp)).1
    · exact (hkey "education" (by simp)).1
    · exact (hkey "additional" (by simp)).1
    · intro k hk
      exact (hkey k hk).2

/-- C2 (counterexample): on a decision object with `status = "PROCEED"` and
`confidence_score = 150`, `fix_decision_structure` *retains* 150 (its check
is `isinstance(..., (int, float))` with no range check) and the salvaged
record therefore *fails* `validate_decision` — contradicting the claim that
the salvage falls back to the default confidence and passes validation. -/
theorem c2_salvage_counterexample :
    fieldPath2 (fixDecisionStructure (.obj c2Fields)) "decision" "status"
      = some (.str "PROCEED") ∧
    fieldPath2 (fixDecisionStructure (.obj c2Fields)) "decision" "confidence_score"
      = some (.num 150) ∧
    validateDecision (fixDecisionStructure (.obj c2Fields)) = false := by
  refine ⟨by with_unfolding_all rfl, by with_unfolding_all rfl, by with_unfolding_all rfl⟩

/-- C2 (amended): for any parsed decision object whose `decision` section
has the valid enum `status = "PROCEED"` and a *numeric* but out-of-range
`confidence_score`, the salvage pass retains the status, copies the
out-of-range score as-is (the source type-checks but does not range-check
it), and the salvaged record fails `validate_decision` (so the caller's
loop eventually falls back to the full default record). -/
theorem c2_salvage_amended (kvs ds : List (String × JValue)) (q : ℚ)
    (hdec : objField kvs "decision" = some ds)
    (hst : lookupKey ds "status" = some (.str "PROCEED"))
    (hcs : lookupKey ds "confidence_score" = some (.num q))
    (hq : ¬ (0 ≤ q ∧ q ≤ 100)) :
    fieldPath2 (fixDecisionStructure (.obj kvs)) "decision" "status"
      = some (.str "PROCEED") ∧
    fieldPath2 (fixDecisionStructure (.obj kvs)) "decision" "confidence_score"
      = some (.num q) ∧
    validateDecision (fixDecisionStructure (.obj kvs)) = false := by
  have hq' : decide (0 ≤ q ∧ q ≤ 100) = false := decide_eq_false_iff_not.mpr hq
  unfold fixDecisionStructure fixDecisionSection
  simp only [hdec, hst, hcs]
  cases hstage : lookupKey ds "interview_stage" with
  | none =>
    simp [insertKey, fieldPath2, objField, lookupKey, hasKey, validateDecision,
      numInRange100, pyNum?, isPyNum, hq', defaultDecSection]
  | some v =>
    cases v with
    | str st =>
      by_cases hin : st = "SKIP" ∨ st = "SCREENING" ∨ st = "TECHNICAL" ∨ st = "FULL_LOOP"
      · simp [hin, insertKey, fieldPath2, objField, lookupKey, hasKey, validateDecision,
          numInRange100, pyNum?, isPyNum, hq', defaultDecSection]
      · simp [hin, insertKey, fieldPath2, objField, lookupKey, hasKey, validateDecision,
          numInRange100, pyNum?, isPyNum, hq', defaultDecSection]
    | null =>
      simp [insertKey, fieldPath2, objField, lookupKey, hasKey, validateDecision,
        numInRange100, pyNum?, isPyNum, hq', defaultDecSection]
    | bool b =>
      simp [insertKey, fieldPath2, objField, lookupKey, hasKey, validateDecision,
        numInRange100, pyNum?, isPyNum, hq', defaultDecSection]
    | num r =>
      simp [insertKey, fieldPath2, objField, lookupKey, hasKey, validateDecision,
        numInRange100, pyNum?, isPyNum, hq', defaultDecSection]
    | arr l =>
      simp [insertKey, fieldPath2, objField, lookupKey, hasKey, validateDecision,
        numInRange100, pyNum?, isPyNum, hq', defaultDecSection]
    | obj l =>
      simp [insertKey, fieldPath2, objField, lookupKey, hasKey, validateDecision,
        numInRange100, pyNum?, isPyNum, hq', defaultDecSection]

/-- C2 (witness): the amended theorem applied at the concrete record with
`status = "PROCEED"` and `confidence_score = 150`. -/
theorem c2_salvage_amended_witness :
    fieldPath2 (fixDecisionStructure (.obj c2Fields)) "decision" "confidence_score"
      = some (.num 150) ∧
    validateDecision (fixDecisionStructure (.obj c2Fields)) = false := by
  have h := c2_salvage_amended c2Fields
    [("status", .str "PROCEED"), ("confidence_score", .num 150),
     ("interview_stage", .str "TECHNICAL")] 150
    (by with_unfolding_all rfl) (by with_unfolding_all rfl)
    (by with_unfolding_all rfl) (by norm_num)
  exact ⟨h.2.1, h.2.2⟩

/-- Overwriting an existing key leaves a dict's key sequence unchanged. -/
theorem insertKey_keys (l : List (String × JValue)) (k : String) (v : JValue)
    (h : (lookupKey l k).isSome) :
    (insertKey l k v).map Prod.fst = l.map Prod.fst := by
  induction l with
  | nil => simp [lookupKey] at h
  | cons kv rest ih =>
    obtain ⟨k0, v0⟩ := kv
    by_cases hk : k0 = k
    · simp [insertKey, hk]
    · simp only [lookupKey, hk, if_false] at h
      simp [insertKey, hk, ih h]

/-- The salvage copy loop only overwrites keys that exist in the default
section, so the key sequence of the section is preserved. -/
theorem copySectionItems_keys (inp dflt : List (String × JValue)) :
    (copySectionItems inp dflt).map Prod.fst = dflt.map Prod.fst := by
  induction inp generalizing dflt with
  | nil => rfl
  | cons kv rest ih =>
    unfold copySectionItems
    rw [ih]
    cases hcur : lookupKey dflt kv.1 with
    | none => simp
    | some cur =>
      by_cases ht : typeMatchesPy kv.2 cur
      · simp [ht, insertKey_keys dflt kv.1 kv.2 (by simp [hcur])]
      · simp [ht]

/-- The rebuilt `decision` section always has the default's three keys. -/
theorem fixDecisionSection_keys (ds : List (String × JValue)) :
    (fixDecisionSection ds).map Prod.fst = defaultDecSection.map Prod.fst := by
  unfold fixDecisionSection
  dsimp only
  repeat' split
  all_goals simp [insertKey, defaultDecSection]

/-- C10: for every input value, `fix_decision_structure` returns a record
with exactly the default decision record's two-level key structure — all
five sections present, each containing exactly the default's keys; the
salvage never drops a default key and never admits a key that the default
lacks. -/
theorem c10_salvage_preserves_shape (d : JValue) :
    shapeOf (fixDecisionStructure d) = shapeOf defaultDecisionJ := by
  cases d with
  | obj kvs =>
    have hsec : ∀ (sec : String) (dflt : List (String × JValue)),
        innerKeys (.obj (match objField kvs sec with
          | some s => copySectionItems s dflt
          | none => dflt)) = innerKeys (.obj dflt) := by
      intro sec dflt
      cases objField kvs sec with
      | none => rfl
      | some s => simp [innerKeys, copySectionItems_keys]
    have hdec : innerKeys (.obj (match objField kvs "decision" with
        | some ds => fixDecisionSection ds
        | none => defaultDecSection)) = innerKeys (.obj defaultDecSection) := by
      cases objField kvs "decision" with
      | none => rfl
      | some ds => simp [innerKeys, fixDecisionSection_keys]
    show shapeOf (.obj [("decision", _), ("rationale", _), ("recommendations", _),
      ("hiring_manager_notes", _), ("next_steps", _)]) = _
    simp only [shapeOf, List.map_cons, List.map_nil, defaultDecisionJ]
    exact congrArg₂ _ (congrArg _ hdec) (congrArg₂ _ (congrArg _ (hsec _ _))
      (congrArg₂ _ (congrArg _ (hsec _ _)) (congrArg₂ _ (congrArg _ (hsec _ _))
        (congrArg₂ _ (congrArg _ (hsec _ _)) rfl))))
  | null => rfl
  | bool b => rfl
  | num q => rfl
  | str s => rfl
  | arr l => rfl

/-- Splitting a successful `Except` bind. -/
theorem except_bind_ok {ε α β : Type} (a : Except ε α) (f : α → Except ε β) (b : β)
    (h : (a >>= f) = .ok b) : ∃ x, a = .ok x ∧ f x = .ok b := by
  cases a with
  | ok x => exact ⟨x, rfl, h⟩
  | error e => simp [Bind.bind, Except.bind] at h

/-- C8: `_transform_api_response` divides every externally supplied score by
100 at the boundary: for any raw record whose `match_score` and category
`score`s are numbers, a successful transform stores `overall_match_score =
match_score / 100` and each stored category breakdown's score divided by 100
(the `additional` category is read but never stored — only
skills/experience/education breakdowns exist in the output). -/
theorem c8_score_unit_conversion
    (kvs an sk ex ed : List (String × JValue)) (q qs qe qd : ℚ) (out : JValue)
    (hms : lookupKey kvs "match_score" = some (.num q))
    (han : lookupKey kvs "analysis" = some (.obj an))
    (hsk : lookupKey an "skills" = some (.obj sk))
    (hex : lookupKey an "experience" = some (.obj ex))
    (hed : lookupKey an "education" = some (.obj ed))
    (hqs : lookupKey sk "score" = some (.num qs))
    (hqe : lookupKey ex "score" = some (.num qe))
    (hqd : lookupKey ed "score" = some (.num qd))
    (hT : transformBody (.obj kvs) = .ok out) :
    fieldPath1 out "overall_match_score" = some (.num (q / 100)) ∧
    fieldPath2 out "skills_match" "score" = some (.num (qs / 100)) ∧
    fieldPath2 out "experience_match" "score" = some (.num (qe / 100)) ∧
    fieldPath2 out "education_match" "score" = some (.num (qd / 100)) := by
  unfold transformBody at hT
  simp only [jGet, hms, han, hsk, hex, hed, hqs, hqe, hqd, Option.getD_some,
    asObjE, pyDiv100, pyNum?, Bind.bind, Except.bind, pure, Except.pure] at hT
  obtain ⟨ad, had2, hT⟩ := except_bind_ok _ _ _ hT
  obtain ⟨d1, hd1, hT⟩ := except_bind_ok _ _ _ hT
  obtain ⟨d2, hd2, hT⟩ := except_bind_ok _ _ _ hT
  obtain ⟨d3, hd3, hT⟩ := except_bind_ok _ _ _ hT
  repeat' split at hT
  all_goals
    first
      | exact Except.noConfusion hT
      | · injection hT with hT
          subst hT
          refine ⟨?_, ?_, ?_, ?_⟩ <;>
            simp [fieldPath1, fieldPath2, objField, lookupKey]

/-- C8 (witness): the theorem applied at the concrete raw record with
`match_score = 72` — stored internally as `0.72` — and category scores
80 / 60 / 90 stored as 0.8 / 0.6 / 0.9. -/
theorem c8_score_unit_conversion_witness :
    transformBody (.obj raw72Fields) = .ok raw72Out ∧
    fieldPath1 raw72Out "overall_match_score" = some (.num 0.72) ∧
    fieldPath2 raw72Out "skills_match" "score" = some (.num 0.8) := by
  have hbody : transformBody (.obj raw72Fields) = .ok raw72Out := by
    with_unfolding_all rfl
  have h := c8_score_unit_conversion
    raw72Fields
    [("skills", .obj [("score", .num 80), ("matches", .arr [.str "python"]), ("gaps", .arr [])]),
     ("experience", .obj [("score", .num 60), ("matches", .arr []), ("gaps", .arr [.str "kubernetes"])]),
     ("education", .obj [("score", .num 90), ("matches", .arr []), ("gaps", .arr [])]),
     ("additional", .obj [("score", .num 40), ("matches", .arr []), ("gaps", .arr [])])]
    [("score", .num 80), ("matches", .arr [.str "python"]), ("gaps", .arr [])]
    [("score", .num 60), ("matches", .arr []), ("gaps", .arr [.str "kubernetes"])]
    [("score", .num 90), ("matches", .arr []), ("gaps", .arr [])]
    72 80 60 90 raw72Out
    (by with_unfolding_all rfl) (by with_unfolding_all rfl)
    (by with_unfolding_all rfl) (by with_unfolding_all rfl)
    (by with_unfolding_all rfl) (by with_unfolding_all rfl)
    (by with_unfolding_all rfl) (by with_unfolding_all rfl) hbody
  refine ⟨hbody, ?_, ?_⟩
  · rw [h.1]
    norm_num
  · rw [h.2.1]
    norm_num

/-- Every exit of the decision attempt loop is validator-accepted. -/
theorem decisionAttemptLoop_validates (n : Nat) (s : String) :
    validateDecision (decisionAttemptLoop n s) = true := by
  induction n generalizing s with
  | zero => exact validate_default_decision
  | succ n ih =>
    unfold decisionAttemptLoop
    cases jsonLoads s with
    | ok d =>
      by_cases h1 : validateDecision d = true
      · simp [h1]
      · by_cases h2 : validateDecision (fixDecisionStructure d) = true
        · simp [h1, h2]
        · by_cases h3 : n = 0
          · simp [h1, h2, h3, validate_default_decision]
          · simp [h1, h2, h3, ih]
    | error e =>
      by_cases h3 : n = 0
      · simp [h3, validate_default_decision]
      · simp [h3, ih]

/-- Every exit of the match attempt loop is validator-accepted. -/
theorem matchAttemptLoop_validates (n : Nat) (s : String) :
    validateMatchAnalysis (matchAttemptLoop n s) = true := by
  induction n generalizing s with
  | zero => exact validate_default_analysis
  | succ n ih =>
    unfold matchAttemptLoop
    cases jsonLoads s with
    | ok a =>
      by_cases h1 : validateMatchAnalysis a = true
      · simp [h1]
      · by_cases h3 : n = 0
        · simp [h1, h3, validate_default_analysis]
        · by_cases h2 : validateMatchAnalysis (fixAnalysisStructure a) = true
          · simp [h1, h2, h3]
          · simp [h1, h2, h3, ih]
    | error e =>
      by_cases h3 : n = 0
      · simp [h3, validate_default_analysis]
      · simp [h3, ih]

/-- A list of strings wrapped in `.str` satisfies `strListOk`. -/
theorem strListOk_map (l : List String) : strListOk (.arr (l.map .str)) = true := by
  simp only [strListOk, List.all_eq_true]
  intro x hx
  rw [List.mem_map] at hx
  obtain ⟨y, _, rfl⟩ := hx
  rfl

/-- `map` with a shape-preserving constructor satisfies `all`. -/
theorem all_map_inv {α : Type} (f : α → JValue) (p : JValue → Bool)
    (h : ∀ a, p (f a) = true) (l : List α) : (l.map f).all p = true := by
  induction l with
  | nil => rfl
  | cons x xs ih => simp [h x, ih]

/-- `filterMap` preserves an invariant of the produced values. -/
theorem all_filterMap_inv {α : Type} (f : α → Option JValue) (p : JValue → Bool)
    (h : ∀ a b, f a = some b → p b = true) (l : List α) :
    (l.filterMap f).all p = true := by
  induction l with
  | nil => rfl
  | cons x xs ih =>
    rw [List.filterMap_cons]
    cases hf : f x with
    | none => exact ih
    | some b => simp [List.all_cons, h x b hf, ih]

/-- Every education entry built by the conversion has the expected shape. -/
theorem eduEntryOk_mk (e : TriEntry) : eduEntryOk (eduEntryJ e) = true := rfl

/-- Every experience entry built by the conversion has the expected shape. -/
theorem expEntryOk_mk (e : TriEntry) : expEntryOk (expEntryJ e) = true := by
  unfold expEntryJ expEntryOk
  simp [isStr, strListOk, strListOk_map]

/-- Every kept certification entry has the expected shape. -/
theorem certEntryOk_mk (e : TriEntry) (v : JValue) (h : certEntryJ e = some v) :
    certEntryOk v = true := by
  unfold certEntryJ at h
  split at h
  · injection h with h
    subst h
    rfl
  · exact Option.noConfusion h

/-- Every kept project entry has the expected shape. -/
theorem projEntryOk_mk (e : ProjEntry) (v : JValue) (h : projEntryJ e = some v) :
    projEntryOk v = true := by
  unfold projEntryJ at h
  split at h
  · injection h with h
    subst h
    unfold projEntryOk
    simp [isStr, strListOk_map]
  · exact Option.noConfusion h

/-- `resumeShapeOk` holds for any record assembled the way
`convertTemplateToJson` assembles one. -/
theorem resumeShapeOk_build (n em p lo s : String) (ed ex : List JValue)
    (te so : List String) (ce pr : List JValue)
    (hed : ed.all eduEntryOk = true) (hex : ex.all expEntryOk = true)
    (hce : ce.all certEntryOk = true) (hpr : pr.all projEntryOk = true) :
    resumeShapeOk (.obj [
      ("personal_info", .obj [("name", .str n), ("email", .str em),
        ("phone", .str p), ("location", .str lo)]),
      ("summary", .str s),
      ("education", .arr ed),
      ("experience", .arr ex),
      ("skills", .obj [("technical", .arr (te.map .str)), ("soft", .arr (so.map .str))]),
      ("certifications", .arr ce),
      ("projects", .arr pr)]) = true := by
  have hred : resumeShapeOk (.obj [
      ("personal_info", .obj [("name", .str n), ("email", .str em),
        ("phone", .str p), ("location", .str lo)]),
      ("summary", .str s),
      ("education", .arr ed),
      ("experience", .arr ex),
      ("skills", .obj [("technical", .arr (te.map .str)), ("soft", .arr (so.map .str))]),
      ("certifications", .arr ce),
      ("projects", .arr pr)]) =
      (ed.all eduEntryOk && ex.all expEntryOk &&
        strListOk (.arr (te.map .str)) && strListOk (.arr (so.map .str)) &&
        ce.all certEntryOk && pr.all projEntryOk) := rfl
  rw [hred, hed, hex, hce, hpr, strListOk_map, strListOk_map]
  rfl

/-- The template conversion always produces a fully shaped resume record. -/
theorem convert_shape (t : String) :
    resumeShapeOk (convertTemplateToJson t) = true := by
  unfold convertTemplateToJson
  refine resumeShapeOk_build _ _ _ _ _ _ _ _ _ _ _ ?_ ?_ ?_ ?_
  · cases sectionCapture "EDUCATION:" ["\n\n", "EXPERIENCE:"] false t with
    | none => rfl
    | some sec =>
      show ((triEntries sec).map eduEntryJ).all eduEntryOk = true
      exact all_map_inv _ _ eduEntryOk_mk _
  · cases sectionCapture "EXPERIENCE:" ["\n\n", "SKILLS:"] false t with
    | none => rfl
    | some sec =>
      show ((triEntries sec).map expEntryJ).all expEntryOk = true
      exact all_map_inv _ _ expEntryOk_mk _
  · cases sectionCapture "CERTIFICATIONS:" ["\n\n", "ADDITIONAL INFO:"] true t with
    | none => rfl
    | some sec =>
      show ((triEntries sec).filterMap certEntryJ).all certEntryOk = true
      exact all_filterMap_inv _ _ certEntryOk_mk _
  · cases sectionCapture "PROJECTS:" ["\n\n", "CERTIFICATIONS:", "ADDITIONAL INFO:"] true t with
    | none => rfl
    | some sec =>
      show ((projEntries sec).filterMap projEntryJ).all projEntryOk = true
      exact all_filterMap_inv _ _ projEntryOk_mk _

/-- C3: every stage agent entry point returns a non-null record of the
expected shape for every input and never raises: `generate_decision` and
`match_job` always return a validator-accepted record (in particular all
their exception paths end in the default records), and `parse_resume`
always returns a record of the full `ParsedResume` shape. -/
theorem c3_entry_points_total :
    (∀ collab, validateDecision (generateDecision collab) = true) ∧
    (∀ collab, validateMatchAnalysis (matchJob collab) = true) ∧
    (∀ txt collab, resumeShapeOk (parseResume txt collab) = true) := by
  refine ⟨?_, ?_, ?_⟩
  · intro collab
    cases collab with
    | error e => exact validate_default_decision
    | ok completion =>
      have hred : generateDecision (.ok completion) =
          (match jsonLoads completion with
           | .ok d => if validateDecision d then d else defaultDecisionJ
           | .error _ =>
             match decisionCleanJsonResponse completion with
             | .error _ => defaultDecisionJ
             | .ok cleaned => decisionAttemptLoop 3 cleaned) := rfl
      rw [hred]
      cases h : jsonLoads completion with
      | ok d =>
        simp only [h]
        by_cases h1 : validateDecision d = true
        · simp [h1]
        · simp [h1, validate_default_decision]
      | error e =>
        simp only [h]
        cases h2 : decisionCleanJsonResponse completion with
        | error e2 => simp [h2, validate_default_decision]
        | ok cleaned => simp [h2, decisionAttemptLoop_validates]
  · intro collab
    cases collab with
    | error e => exact validate_default_analysis
    | ok completion =>
      have hred : matchJob (.ok completion) =
          matchAttemptLoop 3 (jobCleanJsonResponse completion) := rfl
      rw [hred]
      exact matchAttemptLoop_validates 3 _
  · intro txt collab
    by_cases h : pyStrip txt = ""
    · have hr : parseResume txt collab = createEmptyStructure := by
        unfold parseResume
        rw [if_pos h]
      rw [hr]
      rfl
    · cases collab with
      | error e =>
        have hr : parseResume txt (.error e) = createEmptyStructure := by
          unfold parseResume
          rw [if_neg h]
        rw [hr]
        rfl
      | ok completion =>
        have hr : parseResume txt (.ok completion) = convertTemplateToJson completion := by
          unfold parseResume
          rw [if_neg h]
        rw [hr]
        exact convert_shape completion

/-- JSON whitespace is Python whitespace. -/
theorem jsonWs_pyWs (c : Char) (h : isJsonWs c = true) : isPyWs c = true := by
  simp only [isJsonWs, Bool.or_eq_true, decide_eq_true_eq] at h
  simp only [isPyWs, Bool.or_eq_true, decide_eq_true_eq]
  tauto

/-- The array element loop only ever produces arrays. -/
theorem parseArrElems_isArr (n : Nat) : ∀ (cs : List Char) (acc : List JValue)
    (v : JValue) (r : List Char),
    parseArrElems n cs acc = .ok (v, r) → ∃ l, v = .arr l := by
  induction n with
  | zero =>
    intro cs acc v r h
    simp [parseArrElems] at h
  | succ n ih =>
    intro cs acc v r h
    unfold parseArrElems at h
    split at h
    · exact Except.noConfusion h
    · split at h
      · exact ih _ _ _ _ h
      · simp only [Except.ok.injEq, Prod.mk.injEq] at h
        exact ⟨_, h.1.symm⟩
      · exact Except.noConfusion h

/-- The array parser only ever produces arrays. -/
theorem parseArrRest_isArr (n : Nat) (cs : List Char) (v : JValue) (r : List Char)
    (h : parseArrRest n cs = .ok (v, r)) : ∃ l, v = .arr l := by
  cases n with
  | zero => simp [parseArrRest] at h
  | succ n =>
    unfold parseArrRest at h
    split at h
    · simp only [Except.ok.injEq, Prod.mk.injEq] at h
      exact ⟨[], h.1.symm⟩
    · exact parseArrElems_isArr _ _ _ _ _ h

/-- A successful object parse means the input starts with `{`. -/
theorem parseValue_obj_head (n : Nat) (cs : List Char)
    (kvs : List (String × JValue)) (r : List Char)
    (h : parseValue n cs = .ok (.obj kvs, r)) : ∃ t, cs = '{' :: t := by
  cases n with
  | zero => simp [parseValue] at h
  | succ n =>
    unfold parseValue at h
    split at h
    · exact Except.noConfusion h
    · split at h
      · simp at h
      · exact Except.noConfusion h
    · exact ⟨_, rfl⟩
    · obtain ⟨l, hl⟩ := parseArrRest_isArr _ _ _ _ h
      simp at hl
    · simp at h
    · simp at h
    · simp at h
    · split at h
      · split at h
        · simp at h
        · exact Except.noConfusion h
      · exact Except.noConfusion h

/-- `pyStrip s = s` at the character-list level. -/
theorem strip_eq_toList (s : String) (h : pyStrip s = s) :
    stripL s.toList = s.toList := by
  unfold pyStrip at h
  cases s with
  | mk data =>
    injection h

/-- A left/right-stripped list has no leading Python whitespace. -/
theorem dropWhile_eq_self_of_strip (l : List Char) (h : stripL l = l) :
    l.dropWhile isPyWs = l := by
  have h2 : (l.dropWhile isPyWs).length ≤ l.length :=
    (List.dropWhile_suffix isPyWs).length_le
  have h1 : l.length ≤ (l.dropWhile isPyWs).length := by
    conv_lhs => rw [← h]
    unfold stripL
    calc (((l.dropWhile isPyWs).reverse.dropWhile isPyWs).reverse).length
        = ((l.dropWhile isPyWs).reverse.dropWhile isPyWs).length := by
          rw [List.length_reverse]
      _ ≤ (l.dropWhile isPyWs).reverse.length :=
          (List.dropWhile_suffix isPyWs).length_le
      _ = (l.dropWhile isPyWs).length := by rw [List.length_reverse]
  exact (List.dropWhile_suffix isPyWs).eq_of_length (by omega)

/-- A stripped list also has no leading JSON whitespace. -/
theorem dropWhile_jsonWs_eq (l : List Char) (h : l.dropWhile isPyWs = l) :
    l.dropWhile isJsonWs = l := by
  cases l with
  | nil => rfl
  | cons c t =>
    rw [List.dropWhile_cons] at h ⊢
    by_cases hc : isPyWs c = true
    · rw [if_pos hc] at h
      have := congrArg List.length h
      have hle := (List.dropWhile_suffix (l := t) isPyWs).length_le
      simp at this
      omega
    · have hcj : ¬ isJsonWs c = true := fun hj => hc (jsonWs_pyWs c hj)
      rw [if_neg hcj]

/-- A one-character needle at the head is found at index 0. -/
theorem findSubIdx_cons_self (c : Char) (t : List Char) :
    findSubIdx [c] (c :: t) = some 0 := by
  unfold findSubIdx
  rw [if_pos]
  simp [List.isPrefixOf]

/-- Prefix test fails on differing head characters. -/
theorem isPrefixOf_cons_neq (a b : Char) (as bs : List Char) (h : (a == b) = false) :
    (a :: as).isPrefixOf (b :: bs) = false := by
  simp only [List.isPrefixOf, Bool.and_eq_false_iff]
  exact Or.inl h

/-- `endswith('}')` at the character-list level. -/
theorem reverse_head_of_endsWith (s : String) (h : endsWithS "\x7d" s = true) :
    ∃ t, s.toList.reverse = '}' :: t := by
  unfold endsWithS at h
  have hlit : "\x7d".toList.reverse = '}' :: [] := rfl
  rw [hlit] at h
  cases hr : s.toList.reverse with
  | nil => rw [hr] at h; simp [List.isPrefixOf] at h
  | cons c t =>
    rw [hr] at h
    have hc : ('}' == c) = true := by
      by_contra hb
      rw [isPrefixOf_cons_neq _ _ _ _ (Bool.not_eq_true _ ▸ hb)] at h
      exact Bool.noConfusion h
    have : c = '}' := (beq_iff_eq.mp hc).symm
    exact ⟨t, by rw [this]⟩

/-- On a string that starts with `{` and ends with `}`, the brace-span
extraction returns the whole string. -/
theorem extractBraceSpan_full (s : String) (t rt : List Char)
    (hhead : s.toList = '{' :: t) (hrev : s.toList.reverse = '}' :: rt) :
    extractBraceSpan s = some s := by
  have htne : t ≠ [] := by
    intro ht
    rw [hhead, ht] at hrev
    simp at hrev
  have hpos : 0 < s.toList.length - 1 - 0 := by
    rw [hhead]
    cases t with
    | nil => exact absurd rfl htne
    | cons a u => simp
  have hfind1 : findSubIdx ['{'] s.toList = some 0 := by
    rw [hhead]; exact findSubIdx_cons_self _ _
  have hfind2 : findSubIdx ['}'] s.toList.reverse = some 0 := by
    rw [hrev]; exact findSubIdx_cons_self _ _
  have hred : extractBraceSpan s =
      (if 0 < s.toList.length - 1 - 0 then
        some (String.mk (List.take (s.toList.length - 1 - 0 - 0 + 1)
          (List.drop 0 s.toList)))
      else none) := by
    unfold extractBraceSpan
    dsimp only
    rw [hfind1, hfind2]
    rfl
  rw [hred, if_pos hpos]
  have hlenpos : 1 ≤ s.toList.length := by
    rw [hhead]; simp
  have harith : s.toList.length - 1 - 0 - 0 + 1 = s.toList.length := by omega
  rw [harith, List.drop_zero, List.take_length]
  cases s with
  | mk data => rfl

/-- C4 (counterexample): repair is *not* structure-preserving on every
already-valid input: the valid JSON array `[{"a": 1}]` is cut down by the
decision agent's brace-span extraction to the object `{"a": 1}`, which
parses to a different structure. -/
theorem c4_repair_changes_structure_counterexample :
    jsonLoads "[\x7b\"a\": 1\x7d]" = .ok (.arr [.obj [("a", .num 1)]]) ∧
    decisionCleanJsonResponse "[\x7b\"a\": 1\x7d]" = .ok "\x7b\"a\": 1\x7d" ∧
    jsonLoads "\x7b\"a\": 1\x7d" = .ok (.obj [("a", .num 1)]) ∧
    JValue.arr [.obj [("a", .num 1)]] ≠ JValue.obj [("a", .num 1)] := by
  refine ⟨by with_unfolding_all rfl, by with_unfolding_all rfl,
    by with_unfolding_all rfl, by simp⟩

/-- C4 (amended): on a whitespace-stripped string that parses as a JSON
*object* (such strings end in `}`), the decision agent's
`clean_json_response` returns its input unchanged — the fence strips don't
fire, the brace-span extraction returns the whole string, and the first
parse attempt succeeds — so the result re-parses to an equal structure.
The guarantee fails for valid non-object JSON (see the counterexample) and,
for the job agent's `fix_json_string`, for values containing single
quotes. -/
theorem c4_repair_identity_on_object_strings (s : String)
    (kvs : List (String × JValue))
    (hparse : jsonLoads s = .ok (.obj kvs))
    (hstrip : pyStrip s = s)
    (hend : endsWithS "\x7d" s = true) :
    decisionCleanJsonResponse s = .ok s := by
  have hstl := strip_eq_toList s hstrip
  have hdropP := dropWhile_eq_self_of_strip _ hstl
  have hdropJ := dropWhile_jsonWs_eq _ hdropP
  have hhead : ∃ t, s.toList = '{' :: t := by
    have hparse2 := hparse
    unfold jsonLoads at hparse2
    dsimp only at hparse2
    rw [hdropJ] at hparse2
    cases hpv : parseValue (s.toList.length + 1) s.toList with
    | error e =>
      rw [hpv] at hparse2
      exact absurd hparse2 (by simp)
    | ok vr =>
      obtain ⟨v, rest⟩ := vr
      rw [hpv] at hparse2
      by_cases hrest : rest.dropWhile isJsonWs = []
      · simp only [hrest, if_pos] at hparse2
        injection hparse2 with hv
        subst hv
        exact parseValue_obj_head _ _ _ _ hpv
      · simp only [hrest, if_neg] at hparse2
        exact absurd hparse2 (by simp)
  obtain ⟨t, hhead⟩ := hhead
  obtain ⟨rt, hrev⟩ := reverse_head_of_endsWith s hend
  have hf1 : startsWithS "```json" s = false := by
    unfold startsWithS
    rw [hhead, show "```json".toList = '`' :: "``json".toList from rfl]
    exact isPrefixOf_cons_neq _ _ _ _ (by decide)
  have hf2 : startsWithS "```" s = false := by
    unfold startsWithS
    rw [hhead, show "```".toList = '`' :: "``".toList from rfl]
    exact isPrefixOf_cons_neq _ _ _ _ (by decide)
  have hf3 : endsWithS "```" s = false := by
    unfold endsWithS
    rw [hrev, show "```".toList.reverse = '`' :: "``".toList from rfl]
    exact isPrefixOf_cons_neq _ _ _ _ (by decide)
  have hext := extractBraceSpan_full s t rt hhead hrev
  have hok : isOkE (jsonLoads s) = true := by
    rw [hparse]
    rfl
  unfold decisionCleanJsonResponse
  simp only [hstrip, hf1, hf2, hf3, Bool.false_eq_true, if_false, hext, hok, if_true]

/-- Witness for C4: the concrete object string `{"a": 1}` satisfies the
hypotheses and is returned unchanged by the decision agent's cleaner. -/
theorem c4_repair_identity_on_object_strings_witness :
    jsonLoads "\x7b\"a\": 1\x7d" = .ok (.obj [("a", .num 1)]) ∧
    pyStrip "\x7b\"a\": 1\x7d" = "\x7b\"a\": 1\x7d" ∧
    endsWithS "\x7d" "\x7b\"a\": 1\x7d" = true ∧
    decisionCleanJsonResponse "\x7b\"a\": 1\x7d" = .ok "\x7b\"a\": 1\x7d" :=
  ⟨by with_unfolding_all rfl, by with_unfolding_all rfl,
    by with_unfolding_all rfl,
    c4_repair_identity_on_object_strings "\x7b\"a\": 1\x7d" [("a", .num 1)]
      (by with_unfolding_all rfl) (by with_unfolding_all rfl)
      (by with_unfolding_all rfl)⟩

end HRPortal
